import Mathlib

/-! # Form validation engine (`src/script.js`)

A shallow embedding of the validators of `src/script.js` and theorems about them.

Modelling conventions.

* A JavaScript string is the list of its UTF-16 code units (`JSString`), so
  `value.length` is `List.length` and a regular expression without the `u`
  flag consumes one list element per step.
* A JavaScript number is `JSNum`: `NaN`, the two infinities, or a finite value
  (a rational; every finite double is one, and `-0` compares equal to `0`).
* A `throw` is `Except.error`, a `return` is `Except.ok`.
* Functions of the JavaScript runtime that `script.js` calls but does not
  define (`String.prototype.trim`, `RegExp.prototype.test`, `Date`, property
  lookup on an object literal) are modelled from ECMA-262.
-/

set_option autoImplicit false

namespace FormValidation

deriving instance DecidableEq for Except

/-! ## Strings -/

/-- A JavaScript string: the list of its UTF-16 code units. -/
abbrev JSString := List Nat

/-- UTF-16 code units of one Unicode scalar value. -/
def utf16 (c : Char) : List Nat :=
  if c.toNat < 65536 then [c.toNat]
  else [55296 + (c.toNat - 65536) / 1024, 56320 + (c.toNat - 65536) % 1024]

/-- The JavaScript string written by a literal. -/
def js (s : String) : JSString := s.toList.flatMap utf16

/-- ECMA-262 `WhiteSpace` or `LineTerminator` code unit: what
`String.prototype.trim` strips and what `\s` matches. -/
def isWhiteSpace (c : Nat) : Bool :=
  c == 9 || c == 10 || c == 11 || c == 12 || c == 13 || c == 32 || c == 160 ||
  c == 5760 || (8192 ≤ c && c ≤ 8202) || c == 8232 || c == 8233 || c == 8239 ||
  c == 8287 || c == 12288 || c == 65279

/-- The method `String.prototype.trim`: strip white space from both ends. -/
def trim (s : JSString) : JSString :=
  ((s.dropWhile isWhiteSpace).reverse.dropWhile isWhiteSpace).reverse

/-- Empty or whitespace-only: every code unit is white space. -/
def isBlank (s : JSString) : Bool := s.all isWhiteSpace

/-! ## Numbers and values -/

/-- A JavaScript number. -/
inductive JSNum where
  | nan
  | negInf
  | posInf
  | fin (q : ℚ)
  deriving DecidableEq

/-- The `<` operator on numbers (false when either side is `NaN`). -/
def JSNum.lt : JSNum → JSNum → Bool
  | .nan, _ => false
  | _, .nan => false
  | .negInf, .negInf => false
  | .negInf, _ => true
  | .posInf, _ => false
  | .fin _, .negInf => false
  | .fin _, .posInf => true
  | .fin a, .fin b => decide (a < b)

/-- Is the number `NaN`? -/
def JSNum.isNaN : JSNum → Bool
  | .nan => true
  | _ => false

/-- The `>` operator on numbers: `a > b` is `b < a`. -/
def JSNum.gt (a b : JSNum) : Bool := JSNum.lt b a

/-- The `<=` operator on numbers (false when either side is `NaN`). -/
def JSNum.le : JSNum → JSNum → Bool
  | .nan, _ => false
  | _, .nan => false
  | a, b => !(JSNum.lt b a)

/-- A JavaScript value, as far as `typeof` tells values apart. -/
inductive JSVal where
  | undefined
  | null
  | bool (b : Bool)
  | num (n : JSNum)
  | str (s : JSString)
  | bigint (i : Int)
  | symbol
  | object
  | function
  deriving DecidableEq

/-- The `typeof` operator. -/
def typeof : JSVal → JSString
  | .undefined => js "undefined"
  | .null => js "object"
  | .bool _ => js "boolean"
  | .num _ => js "number"
  | .str _ => js "string"
  | .bigint _ => js "bigint"
  | .symbol => js "symbol"
  | .object => js "object"
  | .function => js "function"

/-- ECMA-262 `ToBoolean`: the truthiness used by `!`, `&&`, `||`, `?:` and `if`. -/
def toBoolean : JSVal → Bool
  | .undefined => false
  | .null => false
  | .bool b => b
  | .num .nan => false
  | .num (.fin q) => decide (q ≠ 0)
  | .num _ => true
  | .str s => !s.isEmpty
  | .bigint i => decide (i ≠ 0)
  | .symbol => true
  | .object => true
  | .function => true

/-- Decimal digits of a natural number, as code units. -/
def natToString (n : Nat) : JSString := (Nat.toDigits 10 n).map Char.toNat

/-- ECMA-262 `Number::toString` (radix 10), used by the template literal of
`validateText`. `NaN`, the infinities and the integers of magnitude up to
`2^53` are printed here: each of these integers is a double of its own and its
shortest round-tripping digits are all its digits. For every other finite
value (a fraction, or a larger number, whose digits are cut short and padded
with zeros) the digit string of the runtime is the parameter `shortest`. -/
def numberToString (shortest : ℚ → JSString) : JSNum → JSString
  | .nan => js "NaN"
  | .posInf => js "Infinity"
  | .negInf => js "-Infinity"
  | .fin q =>
    if q.den = 1 ∧ q.num.natAbs ≤ 2 ^ 53 then
      (if q.num < 0 then js "-" else []) ++ natToString q.num.natAbs
    else shortest q

/-! ## `validateText` and `validateRequired` -/

/-- Source lines 1-14 (`validateText`). Past the `typeof` guard of line 3 the
arguments are a string, two numbers and a boolean. -/
def validateText (shortest : ℚ → JSString) (value minLen maxLen required : JSVal) :
    Except JSString JSString :=
  if typeof value != js "string" || typeof minLen != js "number" ||
      typeof maxLen != js "number" || typeof required != js "boolean" then
    .error (js "Invalid parameters for validateText")
  else
    match value, minLen, maxLen, required with
    | .str value, .num minLen, .num maxLen, .bool required =>
      if required && !toBoolean (.str (trim value)) then
        .ok (js "This field is required.")
      else if toBoolean (.str (trim value)) &&
          (JSNum.lt (.fin value.length) minLen || JSNum.gt (.fin value.length) maxLen) then
        .ok (js "Must be " ++ numberToString shortest minLen ++ js "-" ++
          numberToString shortest maxLen ++ js " characters.")
      else .ok (js "")
    | _, _, _, _ => .error (js "Invalid parameters for validateText")

/-- Source lines 16-18 (`validateRequired`): `value && value.trim() !== ''`
on a string. `&&` yields its left operand when that is falsy. -/
def validateRequired (value : JSString) : JSVal :=
  if toBoolean (.str value) then .bool (trim value != js "") else .str value

/-! ## Regular expressions

`RegExp.prototype.test` is a function of the runtime. Every literal of
`script.js` is written `/^...$/` without flags, so `test` succeeds exactly when
the whole string is in the language of the body between `^` and `$`; `Regex`
is that body and `Regex.test` decides membership by Brzozowski derivatives. -/

/-- The body of a regular expression literal. -/
inductive Regex where
  | never
  | empty
  | cls (p : Nat → Bool)
  | seq (a b : Regex)
  | alt (a b : Regex)
  | star (a : Regex)

namespace Regex

/-- Does the expression match the empty string? -/
def nullable : Regex → Bool
  | never => false
  | empty => true
  | cls _ => false
  | seq a b => a.nullable && b.nullable
  | alt a b => a.nullable || b.nullable
  | star _ => true

/-- The derivative of an expression by one code unit. -/
def deriv : Regex → Nat → Regex
  | never, _ => never
  | empty, _ => never
  | cls p, c => if p c then empty else never
  | seq a b, c =>
    if a.nullable then alt (seq (a.deriv c) b) (b.deriv c) else seq (a.deriv c) b
  | alt a b, c => alt (a.deriv c) (b.deriv c)
  | star a, c => seq (a.deriv c) (star a)

/-- The call `regex.test(value)` for an anchored literal `/^body$/`. -/
def test (r : Regex) (value : JSString) : Bool := (value.foldl deriv r).nullable

/-- A literal character. -/
def chr (c : Char) : Regex := cls (fun x => x == c.toNat)

/-- The quantifier `?`. -/
def opt (r : Regex) : Regex := alt r empty

/-- The quantifier `+`. -/
def plus (r : Regex) : Regex := seq r (star r)

/-- The quantifier `{n}`. -/
def rep : Nat → Regex → Regex
  | 0, _ => empty
  | n + 1, r => seq r (rep n r)

/-- Between zero and `k` repetitions. -/
def upTo : Nat → Regex → Regex
  | 0, _ => empty
  | k + 1, r => opt (seq r (upTo k r))

/-- The quantifier `{m,n}`. -/
def repRange (m n : Nat) (r : Regex) : Regex := seq (rep m r) (upTo (n - m) r)

/-- The language of an expression: `Matches r s` when `r` matches all of `s`. -/
inductive Matches : Regex → JSString → Prop
  | empty : Matches empty []
  | cls {p : Nat → Bool} {c : Nat} : p c = true → Matches (cls p) [c]
  | seq {a b : Regex} {u v : JSString} : Matches a u → Matches b v → Matches (seq a b) (u ++ v)
  | altL {a b : Regex} {u : JSString} : Matches a u → Matches (alt a b) u
  | altR {a b : Regex} {u : JSString} : Matches b u → Matches (alt a b) u
  | starNil {a : Regex} : Matches (star a) []
  | starCons {a : Regex} {u v : JSString} :
      Matches a u → Matches (star a) v → Matches (star a) (u ++ v)

end Regex

/-- The class `[0-9]`, which is also `\d`. -/
def isDigit (c : Nat) : Bool := 48 ≤ c && c ≤ 57

/-- The class `[A-Z]`. -/
def isUpper (c : Nat) : Bool := 65 ≤ c && c ≤ 90

/-- The class `[a-z]`. -/
def isLower (c : Nat) : Bool := 97 ≤ c && c ≤ 122

/-- The class `[^\s@]`. -/
def isEmailChar (c : Nat) : Bool := !(isWhiteSpace c || c == 64)

/-- The class `[A-Z\d]`. -/
def isUpperOrDigit (c : Nat) : Bool := isUpper c || isDigit c

/-- The class `[A-Za-z0-9\s\-]`. -/
def isDefaultPostalChar (c : Nat) : Bool :=
  isUpper c || isLower c || isDigit c || isWhiteSpace c || c == 45

open Regex in
/-- Source line 25: `/^[^\s@]+@[^\s@]+\.[^\s@]+$/`. -/
def emailRegex : Regex :=
  seq (plus (cls isEmailChar)) (seq (chr '@') (seq (plus (cls isEmailChar))
    (seq (chr '.') (plus (cls isEmailChar)))))

open Regex in
/-- Source line 56: `/^[0-9]{5}-[0-9]{6}$/`. -/
def phoneRegex : Regex := seq (rep 5 (cls isDigit)) (seq (chr '-') (rep 6 (cls isDigit)))

open Regex in
/-- Source line 69: `/^\d{5}(-\d{4})?$/`. -/
def usRegex : Regex := seq (rep 5 (cls isDigit)) (opt (seq (chr '-') (rep 4 (cls isDigit))))

open Regex in
/-- Source line 70: `/^[A-Z]{1,2}\d[A-Z\d]? ?\d[A-Z]{2}$/`. -/
def ukRegex : Regex :=
  seq (repRange 1 2 (cls isUpper)) (seq (cls isDigit) (seq (opt (cls isUpperOrDigit))
    (seq (opt (chr ' ')) (seq (cls isDigit) (rep 2 (cls isUpper))))))

open Regex in
/-- Source line 71: `/^[A-Za-z0-9\s\-]{3,10}$/`. -/
def defaultRegex : Regex := repRange 3 10 (cls isDefaultPostalChar)

/-! ## `validateEmail`, `validatePhone`, `validatePostalCode` -/

/-- Source lines 21-30 (`validateEmail`). -/
def validateEmail (value : JSString) : JSString :=
  if !toBoolean (validateRequired value) then js "Email is required."
  else if !emailRegex.test value then js "Invalid email format."
  else js ""

/-- Source lines 52-61 (`validatePhone`). -/
def validatePhone (value : JSString) : JSString :=
  if !toBoolean (validateRequired value) then js "Phone number is required."
  else if !phoneRegex.test value then js "Invalid phone number format. Use 07123-456789."
  else js ""

/-- What a property read on the object literal `patterns` can yield. -/
inductive PatternSlot where
  | regex (r : Regex)
  | inherited
  | undefined

/-- Names of the properties every object literal inherits from
`Object.prototype` (ECMA-262 20.1.3 and B.2.2); each holds a function, and
`__proto__` holds the prototype object, so all of them are truthy and none is
a `RegExp`. -/
def objectPrototypeKeys : List JSString :=
  [js "constructor", js "hasOwnProperty", js "isPrototypeOf", js "propertyIsEnumerable",
   js "toLocaleString", js "toString", js "valueOf", js "__proto__",
   js "__defineGetter__", js "__defineSetter__", js "__lookupGetter__",
   js "__lookupSetter__"]

/-- Source lines 68-72: the read `patterns[key]`. Own properties first, then
the prototype chain. -/
def patterns (key : JSString) : PatternSlot :=
  if key = js "United States" then .regex usRegex
  else if key = js "United Kingdom" then .regex ukRegex
  else if key = js "default" then .regex defaultRegex
  else if key ∈ objectPrototypeKeys then .inherited
  else .undefined

/-- Truthiness of what `patterns[key]` yields. -/
def PatternSlot.truthy : PatternSlot → Bool
  | .regex _ => true
  | .inherited => true
  | .undefined => false

/-- Source lines 64-78 (`validatePostalCode`). Calling `test` on a value that
is not a `RegExp` throws a `TypeError`. -/
def validatePostalCode (value country : JSString) : Except JSString JSString :=
  if !toBoolean (validateRequired value) then .ok (js "Postal/Zip code is required.")
  else
    let regex := if (patterns country).truthy then patterns country else patterns (js "default")
    match regex with
    | .regex r =>
      if !r.test value then .ok (js "Invalid postal code for " ++ country ++ js ".")
      else .ok (js "")
    | _ => .error (js "TypeError: regex.test is not a function")

/-! ## Dates

`Date` is an object of the runtime; the model follows ECMA-262 21.4. What the
standard leaves to the implementation (how `Date.parse` reads a string, the
clock, the local time zone) is the environment `DateEnv`. -/

/-- A time value: `none` is `NaN`, `some t` is `t` milliseconds since the epoch. -/
abbrev TimeValue := Option Int

/-- The runtime environment of `Date`. -/
structure DateEnv where
  /-- `Date.parse`: `none` when the string is not recognised as a date. -/
  parse : JSString → TimeValue
  /-- The time value of the current instant, read by `new Date()`. -/
  now : Int
  /-- The abstract operation `LocalTZA(t, isUTC)`: the offset of local time. -/
  localTZA : Int → Bool → Int

/-- Milliseconds of one day. -/
def msPerDay : Int := 86400000

/-- ECMA-262 `Day(t)`. -/
def day (t : Int) : Int := t / msPerDay

/-- ECMA-262 `DayFromYear(y)`: the day number of 1 January of year `y`. -/
def dayFromYear (y : Int) : Int :=
  365 * (y - 1970) + (y - 1969) / 4 - (y - 1901) / 100 + (y - 1601) / 400

/-- ECMA-262 `YearFromTime(t)`: the largest `y` with `DayFromYear(y) ≤ Day(t)`,
found next to the estimate `1970 + Day(t) / 365.2425`. -/
def yearFromTime (t : Int) : Int :=
  let y := 1970 + day t * 400 / 146097
  if dayFromYear (y + 1) ≤ day t then y + 1
  else if dayFromYear y ≤ day t then y
  else y - 1

/-- ECMA-262 `MakeDate(day, time)`. -/
def makeDate (d time : Int) : Int := d * msPerDay + time

/-- ECMA-262 `TimeClip`: a time beyond 8.64e15 ms from the epoch is `NaN`. -/
def timeClip (t : Int) : TimeValue :=
  if t.natAbs ≤ 8640000000000000 then some t else none

namespace DateEnv

/-- ECMA-262 `LocalTime(t)`. -/
def localTime (env : DateEnv) (t : Int) : Int := t + env.localTZA t true

/-- ECMA-262 `UTC(t)`. -/
def utc (env : DateEnv) (t : Int) : Int := t - env.localTZA t false

/-- The time value of `new Date(value)` for a string `value`. -/
def newDate (env : DateEnv) (value : JSString) : TimeValue := (env.parse value).bind timeClip

/-- The time value of a date after `setHours(0, 0, 0, 0)`: midnight, local
time, of the same local day; `NaN` stays `NaN`. -/
def setHoursZero (env : DateEnv) : TimeValue → TimeValue
  | none => none
  | some t => timeClip (env.utc (makeDate (day (env.localTime t)) 0))

/-- The method `getFullYear()`: the local year, `NaN` for an invalid date. -/
def getFullYear (env : DateEnv) : TimeValue → JSNum
  | none => .nan
  | some t => .fin (yearFromTime (env.localTime t))

end DateEnv

/-- The number a `Date` converts to in a comparison (`valueOf`). -/
def timeToNum : TimeValue → JSNum
  | none => .nan
  | some t => .fin t

/-- The `-` operator on numbers. -/
def JSNum.sub : JSNum → JSNum → JSNum
  | .nan, _ => .nan
  | _, .nan => .nan
  | .posInf, .posInf => .nan
  | .negInf, .negInf => .nan
  | .posInf, _ => .posInf
  | .negInf, _ => .negInf
  | .fin _, .posInf => .negInf
  | .fin _, .negInf => .posInf
  | .fin a, .fin b => .fin (a - b)

/-- Source lines 33-49 (`validateDateOfBirth`). -/
def validateDateOfBirth (env : DateEnv) (value : JSString) : JSString :=
  if !toBoolean (validateRequired value) then js "Date of birth is required."
  else
    let dob := env.newDate value
    let today : TimeValue := some env.now
    let today := env.setHoursZero today
    let dob := env.setHoursZero dob
    if JSNum.gt (timeToNum dob) (timeToNum today) then
      js "Date of birth cannot be in the future."
    else
      let age := JSNum.sub (env.getFullYear today) (env.getFullYear dob)
      if JSNum.lt age (.fin 0) || JSNum.gt age (.fin 120) then
        js "Please enter a valid date of birth."
      else js ""

/-! ### A concrete environment

Used to evaluate the validators on concrete inputs: the date-only form
`YYYY-MM-DD` of the Date Time String Format (read as UTC), a fixed clock and a
fixed offset from UTC. -/

/-- ECMA-262 `InLeapYear`. -/
def inLeapYear (y : Int) : Bool := (y % 4 == 0 && y % 100 != 0) || y % 400 == 0

/-- Days of month `m` (1 to 12) in year `y`. -/
def daysInMonth (y : Int) (m : Nat) : Nat :=
  if m = 2 then (if inLeapYear y then 29 else 28)
  else if m = 4 ∨ m = 6 ∨ m = 9 ∨ m = 11 then 30 else 31

/-- ECMA-262 `MakeDay` for month `m` (1 to 12) and day of month `d`. -/
def makeDay (y : Int) (m d : Nat) : Int :=
  dayFromYear y + (((List.range (m - 1)).map (fun i => daysInMonth y (i + 1))).sum : Nat)
    + ((d : Int) - 1)

/-- Value of a list of decimal digits. -/
def digitsValue (ds : List Nat) : Nat := ds.foldl (fun a c => 10 * a + (c - 48)) 0

/-- A `Date.parse` for the date-only form `YYYY-MM-DD`, read as midnight UTC,
with the month from 01 to 12 and the day from 01 to 31; a day past the end of
its month runs into the next month, as `MakeDay` counts it. Strings of another
form are left unread here: what an engine makes of them by its own heuristics
is what the field `parse` of `DateEnv` stands for. -/
def isoDateParse (s : JSString) : TimeValue :=
  match s with
  | [y1, y2, y3, y4, 45, m1, m2, 45, d1, d2] =>
    let y : Int := digitsValue [y1, y2, y3, y4]
    let m := digitsValue [m1, m2]
    let d := digitsValue [d1, d2]
    if [y1, y2, y3, y4, m1, m2, d1, d2].all isDigit && 1 ≤ m && m ≤ 12
        && 1 ≤ d && d ≤ 31 then
      some (makeDate (makeDay y m d) 0)
    else none
  | _ => none

/-- The environment with clock `now`, a constant offset `tza` from UTC and
`isoDateParse`. -/
def isoEnv (now tza : Int) : DateEnv :=
  ⟨isoDateParse, now, fun _ _ => tza⟩

/-- The instant 2026-11-04T12:00:00Z. -/
def noon20261104 : Int := makeDate (makeDay 2026 11 4) 43200000

/-! ## The document, `validateField` and `validateAllFields`

`document.getElementById` is the field-value source. An element is modelled by
what `script.js` reads from it (`value`, `checked`) and writes to it
(`textContent`, `classList`); a lookup that finds no element yields `null`, and
reading a property of `null` throws a `TypeError`. Elements with different
identifiers are different objects, so a write to one is not seen through
another. The clock of `DateEnv` is the same for all calls of one run. -/

/-- An element of the document. -/
structure Element where
  /-- The current value of a form control. -/
  value : JSString
  /-- The checked state of a checkbox. -/
  checked : Bool
  /-- The text shown by the element. -/
  textContent : JSString
  /-- The tokens of the `class` attribute. -/
  classList : List JSString
  deriving DecidableEq

/-- The document: `document.getElementById`, `none` for `null`. -/
abbrev Document := JSString → Option Element

/-- The document after the element `id` became `e`. -/
def Document.set (doc : Document) (id : JSString) (e : Element) : Document :=
  fun k => if k = id then some e else doc k

/-- The method `classList.toggle(token, force)`: the token is present
afterwards exactly when `force` is true. -/
def toggle (classList : List JSString) (token : JSString) (force : Bool) : List JSString :=
  if force then (if token ∈ classList then classList else classList ++ [token])
  else classList.filter (fun t => t != token)

/-- The message of the `TypeError` thrown when a property of `null` is read or
written. -/
def nullError : JSString := js "TypeError: cannot access a property of null"

/-- The read `element.value`. -/
def readValue (element : Option Element) : Except JSString JSString :=
  match element with
  | none => .error nullError
  | some e => .ok e.value

/-- The read `element.checked`. -/
def readChecked (element : Option Element) : Except JSString Bool :=
  match element with
  | none => .error nullError
  | some e => .ok e.checked

/-- The identifier of the error span of a field: the template literal of
source line 83. -/
def errorId (fieldId : JSString) : JSString := js "error-" ++ fieldId

/-- Source lines 84-116: the `switch` of `validateField`, which computes
`errorMsg` for the element already looked up. -/
def switchMessage (shortest : ℚ → JSString) (env : DateEnv) (doc : Document)
    (fieldId : JSString) (element : Option Element) : Except JSString JSString :=
  if fieldId = js "fName" ∨ fieldId = js "lName" then
    match readValue element with
    | .error e => .error e
    | .ok v =>
      validateText shortest (.str v) (.num (.fin 2)) (.num (.fin 50))
        (.bool (fieldId == js "fName"))
  else if fieldId = js "gender" then
    match readValue element with
    | .error e => .error e
    | .ok v => .ok (if toBoolean (validateRequired v) then js "" else js "Gender is required.")
  else if fieldId = js "dateOfBirth" then
    match readValue element with
    | .error e => .error e
    | .ok v => .ok (validateDateOfBirth env v)
  else if fieldId = js "address1" ∨ fieldId = js "city" then
    match readValue element with
    | .error e => .error e
    | .ok v => validateText shortest (.str v) (.num (.fin 2)) (.num (.fin 100)) (.bool true)
  else if fieldId = js "postzipcode" then
    match readValue element with
    | .error e => .error e
    | .ok v =>
      match readValue (doc (js "country")) with
      | .error e => .error e
      | .ok c => validatePostalCode v c
  else if fieldId = js "country" then
    match readValue element with
    | .error e => .error e
    | .ok v => .ok (if toBoolean (validateRequired v) then js "" else js "Country is required.")
  else if fieldId = js "email" then
    match readValue element with
    | .error e => .error e
    | .ok v => .ok (validateEmail v)
  else if fieldId = js "phone" then
    match readValue element with
    | .error e => .error e
    | .ok v => .ok (validatePhone v)
  else if fieldId = js "terms" then
    match readChecked element with
    | .error e => .error e
    | .ok c => .ok (if c then js "" else js "You must accept the terms and conditions.")
  else .ok (js "")

/-- Source lines 81-121 (`validateField`): the returned boolean and the
document after the two writes. -/
def validateField (shortest : ℚ → JSString) (env : DateEnv) (doc : Document)
    (fieldId : JSString) : Except JSString (Bool × Document) :=
  let element := doc fieldId
  let errorSpan := doc (errorId fieldId)
  match switchMessage shortest env doc fieldId element with
  | .error e => .error e
  | .ok errorMsg =>
    match errorSpan with
    | none => .error nullError
    | some span =>
      let doc := doc.set (errorId fieldId) { span with textContent := errorMsg }
      match element with
      | none => .error nullError
      | some el =>
        let doc := doc.set fieldId
          { el with classList := toggle el.classList (js "invalid") (toBoolean (.str errorMsg)) }
        .ok (!toBoolean (.str errorMsg), doc)

/-- Source line 125: the array `fields`. -/
def fieldIds : List JSString :=
  [js "fName", js "lName", js "gender", js "dateOfBirth", js "address1", js "city",
   js "postzipcode", js "country", js "email", js "phone", js "terms"]

/-- Source lines 127-130: the loop over `fields`, from the flag `allValid`. -/
def validateFields (shortest : ℚ → JSString) (env : DateEnv) :
    List JSString → Document → Bool → Except JSString (Bool × Document)
  | [], doc, allValid => .ok (allValid, doc)
  | fieldId :: rest, doc, allValid =>
    match validateField shortest env doc fieldId with
    | .error e => .error e
    | .ok (valid, doc) => validateFields shortest env rest doc (if !valid then false else allValid)

/-- Source lines 124-131 (`validateAllFields`). -/
def validateAllFields (shortest : ℚ → JSString) (env : DateEnv) (doc : Document) :
    Except JSString (Bool × Document) :=
  validateFields shortest env fieldIds doc true

/-- An element as the mocks of the source's tests build it: a value, a checked
state, no text and no class. -/
def field (value : JSString) (checked : Bool) : Element := ⟨value, checked, [], []⟩

/-- A document that answers every lookup: the listed elements, and an empty
unchecked element for every other identifier. -/
def formDocument (fields : List (JSString × Element)) : Document :=
  fun id => some ((fields.lookup id).getD (field [] false))

/-- The form of the source's first full-form test (lines 206-218). -/
def validForm : List (JSString × Element) :=
  [(js "fName", field (js "Alfred") false), (js "lName", field (js "Osagiede") false),
   (js "gender", field (js "Male") false), (js "dateOfBirth", field (js "2006-02-27") false),
   (js "address1", field (js "123 Main St") false), (js "city", field (js "London") false),
   (js "postzipcode", field (js "AB12 3CD") false),
   (js "country", field (js "United Kingdom") false),
   (js "email", field (js "alf.osa@example.com") false),
   (js "phone", field (js "07123-456789") false), (js "terms", field [] true)]

/-! ## Reference definitions, in the words of the specification

Definitions written from the sentences of the specification, to be compared
with the definitions above, which are written from the source. -/

/-- A `shortest` for calls whose bounds are integers of magnitude up to `2^53`,
`NaN` or infinite, where `numberToString` never consults it. -/
def noShortest : ℚ → JSString := fun _ => []

/-- The length message `Must be {minLen}-{maxLen} characters.` -/
def lengthMessage (shortest : ℚ → JSString) (minLen maxLen : JSNum) : JSString :=
  js "Must be " ++ numberToString shortest minLen ++ js "-" ++
    numberToString shortest maxLen ++ js " characters."

/-- The reference of `validateText` as stated: blank values answer to
`required` alone, other values are valid exactly when
`minLen <= value.length <= maxLen`. -/
def validateTextReference (shortest : ℚ → JSString) (value : JSString) (minLen maxLen : JSNum)
    (required : Bool) : JSString :=
  if isBlank value then (if required then js "This field is required." else js "")
  else if JSNum.le minLen (.fin value.length) && JSNum.le (.fin value.length) maxLen then js ""
  else lengthMessage shortest minLen maxLen

/-- The reference of `validateText` with a `NaN` bound read as absent. -/
def validateTextReferenceNaN (shortest : ℚ → JSString) (value : JSString)
    (minLen maxLen : JSNum) (required : Bool) : JSString :=
  if isBlank value then (if required then js "This field is required." else js "")
  else if (minLen.isNaN || JSNum.le minLen (.fin value.length)) &&
      (maxLen.isNaN || JSNum.le (.fin value.length) maxLen) then js ""
  else lengthMessage shortest minLen maxLen

/-- Every code unit of `s` is a decimal digit. -/
def AllDigits (s : JSString) : Prop := ∀ c ∈ s, isDigit c = true

instance (s : JSString) : Decidable (AllDigits s) := by
  unfold AllDigits
  infer_instance

/-- The phone shape as stated: 12 code units, five decimal digits, one hyphen,
six decimal digits. -/
def PhoneShape (value : JSString) : Prop :=
  value.length = 12 ∧
    ∃ a b, value = a ++ js "-" ++ b ∧ a.length = 5 ∧ b.length = 6 ∧ AllDigits a ∧ AllDigits b

/-- The US ZIP shape as stated: five decimal digits, optionally followed by a
hyphen and four decimal digits. -/
def ZipShape (value : JSString) : Prop :=
  ∃ a, a.length = 5 ∧ AllDigits a ∧
    (value = a ∨ ∃ b, b.length = 4 ∧ AllDigits b ∧ value = a ++ js "-" ++ b)

/-- The email shape as stated: no white space, exactly one `@`, something
before it, and after it a part holding a `.` that is neither its first nor its
last code unit. -/
def EmailShape (value : JSString) : Prop :=
  (∀ c ∈ value, isWhiteSpace c = false) ∧ value.count 64 = 1 ∧
    ∃ l d, value = l ++ js "@" ++ d ∧ l ≠ [] ∧
      ∃ x y, d = x ++ js "." ++ y ∧ x ≠ [] ∧ y ≠ []

/-- A letter, `A-Z` or `a-z`. -/
def isLetter (c : Nat) : Bool := isUpper c || isLower c

/-- A letter or a decimal digit. -/
def isAlphanumeric (c : Nat) : Bool := isLetter c || isDigit c

/-- The UK postcode shape as stated: one or two letters, one digit, optionally
one alphanumeric character, a space, one digit, two letters. -/
def UKShapeStated (value : JSString) : Prop :=
  ∃ a d1 o d2 l1 l2, value = a ++ [d1] ++ o ++ js " " ++ [d2, l1, l2] ∧
    (a.length = 1 ∨ a.length = 2) ∧ (∀ c ∈ a, isLetter c = true) ∧ isDigit d1 = true ∧
    (o = [] ∨ ∃ c, o = [c] ∧ isAlphanumeric c = true) ∧
    isDigit d2 = true ∧ isLetter l1 = true ∧ isLetter l2 = true

/-- The UK postcode shape with capital letters only and the space optional:
one or two of `A-Z`, one digit, optionally one of `A-Z` or a digit, optionally
a space, one digit, two of `A-Z`. -/
def UKShape (value : JSString) : Prop :=
  ∃ a d1 o sp d2 l1 l2, value = a ++ [d1] ++ o ++ sp ++ [d2, l1, l2] ∧
    (a.length = 1 ∨ a.length = 2) ∧ (∀ c ∈ a, isUpper c = true) ∧ isDigit d1 = true ∧
    (o = [] ∨ ∃ c, o = [c] ∧ isUpperOrDigit c = true) ∧ (sp = [] ∨ sp = js " ") ∧
    isDigit d2 = true ∧ isUpper l1 = true ∧ isUpper l2 = true

/-- The default postal shape as stated: 3 to 10 code units, each a letter, a
digit, a space or a hyphen. -/
def DefaultShapeStated (value : JSString) : Prop :=
  (3 ≤ value.length ∧ value.length ≤ 10) ∧
    ∀ c ∈ value, isLetter c = true ∨ isDigit c = true ∨ c = 32 ∨ c = 45

instance (value : JSString) : Decidable (DefaultShapeStated value) := by
  unfold DefaultShapeStated
  infer_instance

/-- The default postal shape with any white space for the space: 3 to 10 code
units, each a letter, a digit, a white space character or a hyphen. -/
def DefaultShape (value : JSString) : Prop :=
  (3 ≤ value.length ∧ value.length ≤ 10) ∧
    ∀ c ∈ value, isLetter c = true ∨ isDigit c = true ∨ isWhiteSpace c = true ∨ c = 45

instance (value : JSString) : Decidable (DefaultShape value) := by
  unfold DefaultShape
  infer_instance

/-- Is the date `a` strictly after the date `b`? -/
def strictlyAfter (a b : TimeValue) : Bool := JSNum.lt (timeToNum b) (timeToNum a)

/-- A calendar date: a year, a month from 1 to 12 and a day of the month. -/
structure CalendarDate where
  /-- The calendar year. -/
  year : Int
  /-- The month, 1 for January. -/
  month : Nat
  /-- The day of the month, from 1. -/
  day : Nat
  deriving DecidableEq

/-- Is the calendar date `a` strictly after `b`: a later year, or the same
year and a later month, or the same month and a later day. Both dates being
whole days, this is the comparison of the two dates at midnight. -/
def CalendarDate.after (a b : CalendarDate) : Bool :=
  decide (b.year < a.year) ||
    (decide (a.year = b.year) &&
      (decide (b.month < a.month) || (decide (a.month = b.month) && decide (b.day < a.day))))

/-- The reference of `validateDateOfBirth` as stated, for a value that parses
to the calendar date `d` on the calendar date `today`: the future message if
`d` is strictly after today, otherwise the range message if the calendar-year
difference is negative or exceeds 120, otherwise `''`. -/
def dateOfBirthStated (today d : CalendarDate) : JSString :=
  if d.after today then js "Date of birth cannot be in the future."
  else if today.year - d.year < 0 ∨ today.year - d.year > 120 then
    js "Please enter a valid date of birth."
  else js ""

/-- The day number of a calendar date, counted from 1 January 1970. -/
def CalendarDate.dayNumber (c : CalendarDate) : Int := makeDay c.year c.month c.day

/-- The calendar date a string of the form `YYYY-MM-DD` writes, if it is one of
the calendar. -/
def writtenDate (s : JSString) : Option CalendarDate :=
  match s with
  | [y1, y2, y3, y4, 45, m1, m2, 45, d1, d2] =>
    let y : Int := digitsValue [y1, y2, y3, y4]
    let m := digitsValue [m1, m2]
    let d := digitsValue [d1, d2]
    if [y1, y2, y3, y4, m1, m2, d1, d2].all isDigit && 1 ≤ m && m ≤ 12
        && 1 ≤ d && d ≤ daysInMonth y m then
      some ⟨y, m, d⟩
    else none
  | _ => none

/-- A calendar date of the calendar: the month is from 1 to 12 and the day
from 1 to the length of the month. -/
def CalendarDate.Valid (c : CalendarDate) : Prop :=
  (1 ≤ c.month ∧ c.month ≤ 12) ∧ (1 ≤ c.day ∧ c.day ≤ daysInMonth c.year c.month)

/-- The days of a year before its month `m`. -/
def daysBefore (y : Int) (m : Nat) : Nat :=
  ((List.range (m - 1)).map (fun i => daysInMonth y (i + 1))).sum

/-- The local day number of an instant: the day the local clock shows. -/
def DateEnv.localDay (env : DateEnv) (t : Int) : Int := day (env.localTime t)

/-- The offset of a zone five hours west of UTC, in milliseconds. -/
def fiveHoursWest : Int := -18000000

/-- The rule table of the dispatcher as stated: the message of a field from its
value, its checked state and the value of the country field. An identifier
outside the table has the empty message. -/
def ruleMessage (shortest : ℚ → JSString) (env : DateEnv) (fieldId value : JSString)
    (checked : Bool) (country : JSString) : Except JSString JSString :=
  if fieldId = js "fName" then
    validateText shortest (.str value) (.num (.fin 2)) (.num (.fin 50)) (.bool true)
  else if fieldId = js "lName" then
    validateText shortest (.str value) (.num (.fin 2)) (.num (.fin 50)) (.bool false)
  else if fieldId = js "gender" then
    .ok (if toBoolean (validateRequired value) then js "" else js "Gender is required.")
  else if fieldId = js "dateOfBirth" then .ok (validateDateOfBirth env value)
  else if fieldId = js "address1" ∨ fieldId = js "city" then
    validateText shortest (.str value) (.num (.fin 2)) (.num (.fin 100)) (.bool true)
  else if fieldId = js "postzipcode" then validatePostalCode value country
  else if fieldId = js "country" then
    .ok (if toBoolean (validateRequired value) then js "" else js "Country is required.")
  else if fieldId = js "email" then .ok (validateEmail value)
  else if fieldId = js "phone" then .ok (validatePhone value)
  else if fieldId = js "terms" then
    .ok (if checked then js "" else js "You must accept the terms and conditions.")
  else .ok (js "")

/-- The current value of the country field, empty when there is no such
element. -/
def countryValue (doc : Document) : JSString :=
  match doc (js "country") with
  | some c => c.value
  | none => []

/-- The document after a field was reported: its error span shows `msg` and
the field carries the class `invalid` exactly when `msg` is not empty. -/
def reported (doc : Document) (fieldId : JSString) (el span : Element) (msg : JSString) :
    Document :=
  (doc.set (errorId fieldId) { span with textContent := msg }).set fieldId
    { el with classList := toggle el.classList (js "invalid") (!msg.isEmpty) }

/-- The error text a document shows for a field. -/
def errorText (doc : Document) (fieldId : JSString) : Option JSString :=
  (doc (errorId fieldId)).map (fun e => e.textContent)

/-- The invalid flag a document shows for a field. -/
def invalidFlag (doc : Document) (fieldId : JSString) : Option Bool :=
  (doc fieldId).map (fun e => decide (js "invalid" ∈ e.classList))

/-- What `script.js` reads of an element: its value and its checked state. -/
def inputs (doc : Document) (id : JSString) : Option (JSString × Bool) :=
  (doc id).map (fun e => (e.value, e.checked))

/-- The message `validateField` computes for a field of a document. -/
def fieldMessage (shortest : ℚ → JSString) (env : DateEnv) (doc : Document)
    (fieldId : JSString) : Except JSString JSString :=
  switchMessage shortest env doc fieldId (doc fieldId)

/-- The boolean `validateField` returns for a field of a document, or the
error it throws. -/
def fieldOutcome (shortest : ℚ → JSString) (env : DateEnv) (doc : Document)
    (fieldId : JSString) : Except JSString Bool :=
  (validateField shortest env doc fieldId).map Prod.fst

/-- The conjunction of the per-field results, each taken on the same document,
without stopping at a false one; an error ends it. -/
def allOutcomes (shortest : ℚ → JSString) (env : DateEnv) (doc : Document) :
    List JSString → Bool → Except JSString Bool
  | [], acc => .ok acc
  | fieldId :: rest, acc =>
    match fieldOutcome shortest env doc fieldId with
    | .error e => .error e
    | .ok b => allOutcomes shortest env doc rest (acc && b)

/-- The document of the valid form after its email field was validated. -/
def validFormEmailReported : Document :=
  reported (formDocument validForm) (js "email") (field (js "alf.osa@example.com") false)
    (field [] false) (js "")

/-- A document shows the message `msg` for a field: the error text is `msg`
and the invalid flag is set exactly when `msg` is not empty. -/
def Shows (doc : Document) (fieldId msg : JSString) : Prop :=
  errorText doc fieldId = some msg ∧ invalidFlag doc fieldId = some (!msg.isEmpty)

/-- The local calendar year never decreases as time goes on. It holds for
every fixed offset from UTC. -/
def DateEnv.YearMonotone (env : DateEnv) : Prop :=
  ∀ a b : Int, a ≤ b → yearFromTime (env.localTime a) ≤ yearFromTime (env.localTime b)

/-- The age `validateDateOfBirth` computes for a value: the difference of the
years of today and of the date of birth, both normalised to midnight. -/
def DateEnv.age (env : DateEnv) (value : JSString) : JSNum :=
  JSNum.sub (env.getFullYear (env.setHoursZero (some env.now)))
    (env.getFullYear (env.setHoursZero (env.newDate value)))

/-- The future check of `validateDateOfBirth` fires for a value. -/
def DateEnv.inFuture (env : DateEnv) (value : JSString) : Bool :=
  strictlyAfter (env.setHoursZero (env.newDate value)) (env.setHoursZero (some env.now))

/-- The fields whose blank value is rejected: all with a value but `lName`. -/
def requiredIds : List JSString :=
  [js "fName", js "gender", js "dateOfBirth", js "address1", js "city", js "postzipcode",
   js "country", js "email", js "phone"]

/-- The valid form with the postal code `'10001'` under the country `'United
Kingdom'`, as in the source's third full-form test. -/
def crossFieldForm : List (JSString × Element) :=
  (js "postzipcode", field (js "10001") false) :: validForm

/-- The valid form with the postal code `'12345'` under the country
`'Canada'`. -/
def canadaForm : List (JSString × Element) :=
  (js "postzipcode", field (js "12345") false) :: (js "country", field (js "Canada") false) ::
    validForm

/-- The valid form with a blank first name, the postal code `'12345'` and the
country `'constructor'`. -/
def blankNameConstructorForm : List (JSString × Element) :=
  (js "fName", field (js "") false) :: (js "postzipcode", field (js "12345") false) ::
    (js "country", field (js "constructor") false) :: validForm

/-- The valid form with a blank last name. -/
def blankLastNameForm : List (JSString × Element) :=
  (js "lName", field (js "  ") false) :: validForm

/-! ## Theorems: dates -/

theorem dayFromYear_yearFromTime_le (t : Int) : dayFromYear (yearFromTime t) ≤ day t := by
  unfold yearFromTime dayFromYear
  simp only
  split_ifs <;> omega

theorem day_lt_dayFromYear_succ (t : Int) : day t < dayFromYear (yearFromTime t + 1) := by
  unfold yearFromTime dayFromYear
  simp only
  split_ifs
  · omega
  · omega
  · simp only [sub_add_cancel]
    omega

/-! ## Theorems: regular expressions -/

namespace Regex

theorem not_matches_never (s : JSString) : ¬ Matches never s := by
  intro h
  cases h

theorem matches_empty_iff (s : JSString) : Matches empty s ↔ s = [] := by
  constructor
  · intro h
    cases h
    rfl
  · rintro rfl
    exact Matches.empty

theorem matches_cls_iff (p : Nat → Bool) (s : JSString) :
    Matches (cls p) s ↔ ∃ c, s = [c] ∧ p c = true := by
  constructor
  · intro h
    cases h with
    | cls hc => exact ⟨_, rfl, hc⟩
  · rintro ⟨c, rfl, hc⟩
    exact Matches.cls hc

theorem matches_seq_iff (a b : Regex) (s : JSString) :
    Matches (seq a b) s ↔ ∃ u v, s = u ++ v ∧ Matches a u ∧ Matches b v := by
  constructor
  · intro h
    cases h with
    | seq ha hb => exact ⟨_, _, rfl, ha, hb⟩
  · rintro ⟨u, v, rfl, ha, hb⟩
    exact Matches.seq ha hb

theorem matches_alt_iff (a b : Regex) (s : JSString) :
    Matches (alt a b) s ↔ Matches a s ∨ Matches b s := by
  constructor
  · intro h
    cases h with
    | altL ha => exact Or.inl ha
    | altR hb => exact Or.inr hb
  · rintro (ha | hb)
    · exact Matches.altL ha
    · exact Matches.altR hb

/-- A non-empty match of `a*` starts with a non-empty match of `a`. -/
theorem matches_star_cons (a : Regex) (c : Nat) (s : JSString)
    (h : Matches (star a) (c :: s)) :
    ∃ u v, s = u ++ v ∧ Matches a (c :: u) ∧ Matches (star a) v := by
  generalize hr : star a = r at h
  generalize hw : c :: s = w at h
  induction h with
  | empty => cases hr
  | cls _ => cases hr
  | seq _ _ => cases hr
  | altL _ => cases hr
  | altR _ => cases hr
  | starNil => cases hw
  | @starCons a' u v hu hv _ ihv =>
    cases hr
    cases u with
    | nil => exact ihv rfl hw
    | cons d u' =>
      simp only [List.cons_append, List.cons.injEq] at hw
      obtain ⟨rfl, rfl⟩ := hw
      exact ⟨u', v, rfl, hu, hv⟩

theorem nullable_iff (r : Regex) : r.nullable = true ↔ Matches r [] := by
  induction r with
  | never => simp [nullable, not_matches_never]
  | empty => simp [nullable, matches_empty_iff]
  | cls p => simp [nullable, matches_cls_iff]
  | seq a b iha ihb =>
    simp only [nullable, Bool.and_eq_true, iha, ihb, matches_seq_iff]
    constructor
    · rintro ⟨ha, hb⟩
      exact ⟨[], [], rfl, ha, hb⟩
    · rintro ⟨u, v, huv, ha, hb⟩
      have h := List.append_eq_nil.mp huv.symm
      rw [h.1] at ha
      rw [h.2] at hb
      exact ⟨ha, hb⟩
  | alt a b iha ihb => simp [nullable, iha, ihb, matches_alt_iff]
  | star a _ => simp [nullable, Matches.starNil]

theorem matches_deriv_iff (r : Regex) (c : Nat) (s : JSString) :
    Matches (r.deriv c) s ↔ Matches r (c :: s) := by
  induction r generalizing s with
  | never => simp [deriv, not_matches_never]
  | empty => simp [deriv, not_matches_never, matches_empty_iff]
  | cls p =>
    by_cases hp : p c = true
    · simp only [deriv, hp, if_true, matches_empty_iff, matches_cls_iff]
      constructor
      · rintro rfl
        exact ⟨c, rfl, hp⟩
      · rintro ⟨d, hd, _⟩
        simp only [List.cons.injEq] at hd
        exact hd.2
    · simp only [deriv, hp, matches_cls_iff]
      constructor
      · intro h
        exact absurd h (not_matches_never s)
      · rintro ⟨d, hd, hs⟩
        simp only [List.cons.injEq] at hd
        rw [← hd.1] at hs
        exact absurd hs hp
  | seq a b iha ihb =>
    have key : Matches (seq a b) (c :: s) ↔
        (∃ u v, s = u ++ v ∧ Matches a (c :: u) ∧ Matches b v) ∨
          (Matches a [] ∧ Matches b (c :: s)) := by
      rw [matches_seq_iff]
      constructor
      · rintro ⟨u, v, huv, ha, hb⟩
        cases u with
        | nil =>
          simp only [List.nil_append] at huv
          rw [← huv] at hb
          exact Or.inr ⟨ha, hb⟩
        | cons d u' =>
          simp only [List.cons_append, List.cons.injEq] at huv
          obtain ⟨rfl, rfl⟩ := huv
          exact Or.inl ⟨u', v, rfl, ha, hb⟩
      · rintro (⟨u, v, rfl, ha, hb⟩ | ⟨ha, hb⟩)
        · exact ⟨c :: u, v, rfl, ha, hb⟩
        · exact ⟨[], c :: s, rfl, ha, hb⟩
    rw [key]
    by_cases hn : a.nullable = true
    · simp only [deriv, hn, if_true, matches_alt_iff, matches_seq_iff, iha, ihb]
      have hn' := (nullable_iff a).mp hn
      constructor
      · rintro (h | h)
        · exact Or.inl h
        · exact Or.inr ⟨hn', h⟩
      · rintro (h | ⟨_, h⟩)
        · exact Or.inl h
        · exact Or.inr h
    · have hd : (seq a b).deriv c = seq (a.deriv c) b := by simp [deriv, hn]
      rw [hd]
      simp only [matches_seq_iff, iha]
      have hn' : ¬ Matches a [] := fun h => hn ((nullable_iff a).mpr h)
      constructor
      · intro h
        exact Or.inl h
      · rintro (h | ⟨h, _⟩)
        · exact h
        · exact absurd h hn'
  | alt a b iha ihb => simp [deriv, matches_alt_iff, iha, ihb]
  | star a iha =>
    simp only [deriv, matches_seq_iff, iha]
    constructor
    · rintro ⟨u, v, rfl, ha, hv⟩
      exact Matches.starCons ha hv
    · intro h
      exact matches_star_cons a c s h

/-- The derivative matcher decides the language. -/
theorem test_iff (r : Regex) (s : JSString) : r.test s = true ↔ Matches r s := by
  unfold test
  induction s generalizing r with
  | nil => simpa using nullable_iff r
  | cons c s ih =>
    rw [List.foldl_cons, ih, matches_deriv_iff]

end Regex

/-! ### Languages of the quantifiers over a character class -/

namespace Regex

theorem matches_chr_iff (c : Char) (s : JSString) : Matches (chr c) s ↔ s = [c.toNat] := by
  unfold chr
  rw [matches_cls_iff]
  constructor
  · rintro ⟨d, rfl, hd⟩
    simp only [beq_iff_eq] at hd
    rw [hd]
  · rintro rfl
    exact ⟨c.toNat, rfl, by simp⟩

theorem matches_opt_iff (r : Regex) (s : JSString) : Matches (opt r) s ↔ Matches r s ∨ s = [] := by
  unfold opt
  rw [matches_alt_iff, matches_empty_iff]

theorem matches_star_cls_iff (p : Nat → Bool) (s : JSString) :
    Matches (star (cls p)) s ↔ ∀ c ∈ s, p c = true := by
  induction s with
  | nil => simp [Matches.starNil]
  | cons c s ih =>
    constructor
    · intro h
      obtain ⟨u, v, rfl, hu, hv⟩ := matches_star_cons _ c _ h
      rw [matches_cls_iff] at hu
      obtain ⟨d, hd, hpd⟩ := hu
      simp only [List.cons.injEq] at hd
      obtain ⟨rfl, rfl⟩ := hd
      intro x hx
      simp only [List.nil_append, List.mem_cons] at hx
      rcases hx with rfl | hx
      · exact hpd
      · exact ih.mp hv x hx
    · intro h
      have hc : p c = true := h c (List.mem_cons_self _ _)
      have hs : ∀ x ∈ s, p x = true := fun x hx => h x (List.mem_cons_of_mem _ hx)
      exact Matches.starCons (u := [c]) (Matches.cls hc) (ih.mpr hs)

theorem matches_plus_cls_iff (p : Nat → Bool) (s : JSString) :
    Matches (plus (cls p)) s ↔ s ≠ [] ∧ ∀ c ∈ s, p c = true := by
  unfold plus
  rw [matches_seq_iff]
  constructor
  · rintro ⟨u, v, rfl, hu, hv⟩
    rw [matches_cls_iff] at hu
    obtain ⟨d, rfl, hd⟩ := hu
    rw [matches_star_cls_iff] at hv
    refine ⟨by simp, ?_⟩
    intro x hx
    simp only [List.singleton_append, List.mem_cons] at hx
    rcases hx with rfl | hx
    · exact hd
    · exact hv x hx
  · rintro ⟨hne, h⟩
    cases s with
    | nil => exact absurd rfl hne
    | cons c s =>
      refine ⟨[c], s, rfl, Matches.cls (h c (List.mem_cons_self _ _)), ?_⟩
      rw [matches_star_cls_iff]
      exact fun x hx => h x (List.mem_cons_of_mem _ hx)

theorem matches_rep_cls_iff (p : Nat → Bool) (n : Nat) (s : JSString) :
    Matches (rep n (cls p)) s ↔ s.length = n ∧ ∀ c ∈ s, p c = true := by
  induction n generalizing s with
  | zero =>
    simp only [rep, matches_empty_iff]
    constructor
    · rintro rfl
      simp
    · rintro ⟨h, _⟩
      exact List.length_eq_zero.mp h
  | succ n ih =>
    simp only [rep, matches_seq_iff, matches_cls_iff]
    constructor
    · rintro ⟨u, v, rfl, ⟨d, rfl, hd⟩, hv⟩
      obtain ⟨hl, hall⟩ := (ih v).mp hv
      refine ⟨by simp [hl], ?_⟩
      intro x hx
      simp only [List.singleton_append, List.mem_cons] at hx
      rcases hx with rfl | hx
      · exact hd
      · exact hall x hx
    · rintro ⟨hl, hall⟩
      cases s with
      | nil => simp at hl
      | cons c s =>
        simp only [List.length_cons, add_left_inj] at hl
        exact ⟨[c], s, rfl, ⟨c, rfl, hall c (List.mem_cons_self _ _)⟩,
          (ih s).mpr ⟨hl, fun x hx => hall x (List.mem_cons_of_mem _ hx)⟩⟩

theorem matches_upTo_cls_iff (p : Nat → Bool) (k : Nat) (s : JSString) :
    Matches (upTo k (cls p)) s ↔ s.length ≤ k ∧ ∀ c ∈ s, p c = true := by
  induction k generalizing s with
  | zero =>
    simp only [upTo, matches_empty_iff]
    constructor
    · rintro rfl
      simp
    · rintro ⟨h, _⟩
      exact List.length_eq_zero.mp (Nat.le_zero.mp h)
  | succ k ih =>
    simp only [upTo, matches_opt_iff, matches_seq_iff, matches_cls_iff]
    constructor
    · rintro (⟨u, v, rfl, ⟨d, rfl, hd⟩, hv⟩ | rfl)
      · obtain ⟨hl, hall⟩ := (ih v).mp hv
        refine ⟨by simp; omega, ?_⟩
        intro x hx
        simp only [List.singleton_append, List.mem_cons] at hx
        rcases hx with rfl | hx
        · exact hd
        · exact hall x hx
      · simp
    · rintro ⟨hl, hall⟩
      cases s with
      | nil => exact Or.inr rfl
      | cons c s =>
        simp only [List.length_cons, add_le_add_iff_right] at hl
        exact Or.inl ⟨[c], s, rfl, ⟨c, rfl, hall c (List.mem_cons_self _ _)⟩,
          (ih s).mpr ⟨hl, fun x hx => hall x (List.mem_cons_of_mem _ hx)⟩⟩

theorem matches_repRange_cls_iff (p : Nat → Bool) (m n : Nat) (hmn : m ≤ n) (s : JSString) :
    Matches (repRange m n (cls p)) s ↔
      (m ≤ s.length ∧ s.length ≤ n) ∧ ∀ c ∈ s, p c = true := by
  unfold repRange
  rw [matches_seq_iff]
  constructor
  · rintro ⟨u, v, rfl, hu, hv⟩
    obtain ⟨hul, hua⟩ := (matches_rep_cls_iff p m u).mp hu
    obtain ⟨hvl, hva⟩ := (matches_upTo_cls_iff p (n - m) v).mp hv
    refine ⟨⟨by simp; omega, by simp; omega⟩, ?_⟩
    intro x hx
    rcases List.mem_append.mp hx with hx | hx
    · exact hua x hx
    · exact hva x hx
  · rintro ⟨⟨h1, h2⟩, hall⟩
    refine ⟨s.take m, s.drop m, (List.take_append_drop m s).symm, ?_, ?_⟩
    · rw [matches_rep_cls_iff]
      exact ⟨by simp; omega, fun x hx => hall x (List.mem_of_mem_take hx)⟩
    · rw [matches_upTo_cls_iff]
      exact ⟨by simp; omega, fun x hx => hall x (List.mem_of_mem_drop hx)⟩

end Regex

/-! ## Theorems: trimming and requiredness -/

theorem trim_eq_nil_iff (s : JSString) : trim s = [] ↔ isBlank s = true := by
  unfold trim isBlank
  rw [List.reverse_eq_nil_iff, List.dropWhile_eq_nil_iff, List.all_eq_true]
  constructor
  · intro h
    have hnil : s.dropWhile isWhiteSpace = [] := by
      by_contra hne
      have h1 := List.head_dropWhile_not isWhiteSpace s hne
      have h2 := h _ (List.mem_reverse.mpr (List.head_mem hne))
      rw [h1] at h2
      cases h2
    exact List.dropWhile_eq_nil_iff.mp hnil
  · intro h
    have hnil : s.dropWhile isWhiteSpace = [] := List.dropWhile_eq_nil_iff.mpr h
    rw [hnil]
    simp

/-- In a boolean context `validateRequired(value)` is "not blank". -/
theorem toBoolean_validateRequired (value : JSString) :
    toBoolean (validateRequired value) = !isBlank value := by
  unfold validateRequired
  cases value with
  | nil => simp [toBoolean, isBlank]
  | cons c s =>
    have hb : toBoolean (.str (c :: s)) = true := by simp [toBoolean]
    rw [if_pos hb]
    simp only [toBoolean, js]
    by_cases h : isBlank (c :: s) = true
    · have ht := (trim_eq_nil_iff (c :: s)).mpr h
      simp [ht, h]
    · have ht : trim (c :: s) ≠ [] := fun e => h ((trim_eq_nil_iff (c :: s)).mp e)
      simp [ht, h]

/-! ## Theorems: `validateText` -/

theorem toBoolean_trim (value : JSString) : toBoolean (.str (trim value)) = !isBlank value := by
  by_cases h : isBlank value = true
  · simp [toBoolean, (trim_eq_nil_iff value).mpr h, h]
  · have ht : trim value ≠ [] := fun e => h ((trim_eq_nil_iff value).mp e)
    cases hv : trim value with
    | nil => exact absurd hv ht
    | cons c t => simp [toBoolean, h]

/-- The two comparisons of source line 10 both fail exactly when each bound is
`NaN` or satisfied. -/
theorem length_checks_pass_iff (n : ℚ) (minLen maxLen : JSNum) :
    (JSNum.lt (.fin n) minLen || JSNum.gt (.fin n) maxLen) =
      !((minLen.isNaN || JSNum.le minLen (.fin n)) &&
        (maxLen.isNaN || JSNum.le (.fin n) maxLen)) := by
  cases minLen <;> cases maxLen <;> simp [JSNum.lt, JSNum.gt, JSNum.le, JSNum.isNaN]

/-- The body of `validateText` on well-typed arguments. -/
theorem validateText_of_typed (shortest : ℚ → JSString) (value : JSString)
    (minLen maxLen : JSNum) (required : Bool) :
    validateText shortest (.str value) (.num minLen) (.num maxLen) (.bool required) =
      if required && isBlank value then .ok (js "This field is required.")
      else if !isBlank value &&
          (JSNum.lt (.fin value.length) minLen || JSNum.gt (.fin value.length) maxLen) then
        .ok (lengthMessage shortest minLen maxLen)
      else .ok (js "") := by
  have hs : (js "string" != js "string") = false := by decide
  have hn : (js "number" != js "number") = false := by decide
  have hb : (js "boolean" != js "boolean") = false := by decide
  simp only [validateText, typeof, hs, hn, hb, Bool.or_self, Bool.false_eq_true, if_false,
    toBoolean_trim, Bool.not_not, lengthMessage]

/-- C1, as amended. For every string `value`, numbers `minLen` and `maxLen` and
boolean `required`, `validateText` returns: for a blank value, the required
message when `required` and `''` otherwise; for a non-blank value, `''`
exactly when `minLen <= value.length` or `minLen` is `NaN`, and
`value.length <= maxLen` or `maxLen` is `NaN` (length of the untrimmed value,
bounds inclusive), and the length message otherwise. -/
theorem validateText_eq_reference_nan (shortest : ℚ → JSString) (value : JSString)
    (minLen maxLen : JSNum) (required : Bool) :
    validateText shortest (.str value) (.num minLen) (.num maxLen) (.bool required) =
      .ok (validateTextReferenceNaN shortest value minLen maxLen required) := by
  simp only [validateText_of_typed, validateTextReferenceNaN, length_checks_pass_iff]
  cases hb : isBlank value <;> cases required <;>
    cases hc : ((minLen.isNaN || JSNum.le minLen (.fin value.length)) &&
      (maxLen.isNaN || JSNum.le (.fin value.length) maxLen)) <;> simp

/-- C1, counterexample. With both bounds `NaN` the non-blank value `'abc'` is
accepted, although `NaN <= 3` is false and the stated reference gives the
length message. -/
theorem validateText_reference_fails_at_nan :
    validateText noShortest (.str (js "abc")) (.num .nan) (.num .nan) (.bool true) =
        .ok (js "") ∧
      validateTextReference noShortest (js "abc") .nan .nan true =
        js "Must be NaN-NaN characters." := by
  decide

/-- Away from `NaN` the amended reference is the stated one. -/
theorem validateTextReferenceNaN_eq_reference (shortest : ℚ → JSString) (value : JSString)
    (minLen maxLen : JSNum) (required : Bool) (hmin : minLen.isNaN = false)
    (hmax : maxLen.isNaN = false) :
    validateTextReferenceNaN shortest value minLen maxLen required =
      validateTextReference shortest value minLen maxLen required := by
  simp [validateTextReferenceNaN, validateTextReference, hmin, hmax]

/-- C2, as amended. For all numbers `minLen <= maxLen` and `required = true`:
every blank value gives the required message; every value that is not blank
and whose length is exactly `minLen` or exactly `maxLen` gives `''`; every
value that is not blank and whose length is `minLen - 1` or `maxLen + 1` gives
the length message. -/
theorem validateText_boundaries (shortest : ℚ → JSString) (value : JSString)
    (minLen maxLen : JSNum) (hle : JSNum.le minLen maxLen = true) :
    (isBlank value = true →
      validateText shortest (.str value) (.num minLen) (.num maxLen) (.bool true) =
        .ok (js "This field is required.")) ∧
    (isBlank value = false →
      (minLen = .fin value.length ∨ maxLen = .fin value.length) →
      validateText shortest (.str value) (.num minLen) (.num maxLen) (.bool true) =
        .ok (js "")) ∧
    (isBlank value = false →
      (minLen = .fin (value.length + 1) ∨ maxLen = .fin (value.length - 1)) →
      validateText shortest (.str value) (.num minLen) (.num maxLen) (.bool true) =
        .ok (lengthMessage shortest minLen maxLen)) := by
  refine ⟨?_, ?_, ?_⟩
  · intro hb
    simp [validateText_of_typed, hb]
  · intro hb hlen
    have hpass : (JSNum.lt (.fin value.length) minLen ||
        JSNum.gt (.fin value.length) maxLen) = false := by
      rcases hlen with h | h
      · subst h
        cases maxLen <;> simp_all [JSNum.lt, JSNum.gt, JSNum.le]
      · subst h
        cases minLen <;> simp_all [JSNum.lt, JSNum.gt, JSNum.le]
    simp [validateText_of_typed, hb, hpass]
  · intro hb hlen
    have hfail : (JSNum.lt (.fin value.length) minLen ||
        JSNum.gt (.fin value.length) maxLen) = true := by
      rcases hlen with h | h
      · subst h
        simp [JSNum.lt]
      · subst h
        simp [JSNum.lt, JSNum.gt]
    simp [validateText_of_typed, hb, hfail]

/-- C2, witness: the bounds 2 and 50 of the source's own tests; `'Jo'` has
length `minLen` and is valid, `'J'` has length `minLen - 1` and gets the length
message. -/
theorem validateText_boundaries_witness :
    JSNum.le (.fin 2) (.fin 50) = true ∧
      validateText noShortest (.str (js "Jo")) (.num (.fin 2)) (.num (.fin 50)) (.bool true) =
        .ok (js "") ∧
      validateText noShortest (.str (js "J")) (.num (.fin 2)) (.num (.fin 50)) (.bool true) =
        .ok (js "Must be 2-50 characters.") :=
  ⟨by decide,
    (validateText_boundaries noShortest (js "Jo") (.fin 2) (.fin 50) (by decide)).2.1
      (by decide) (Or.inl (by decide)),
    (validateText_boundaries noShortest (js "J") (.fin 2) (.fin 50) (by decide)).2.2
      (by decide) (Or.inl (by decide!))⟩

/-- C2, counterexample. With bounds 2 and 50, the value of two spaces has
length exactly `minLen` and the value of one space has length `minLen - 1`;
both are answered with the required message, neither with `''` nor with the
length message. -/
theorem validateText_boundaries_fail_on_blank :
    JSNum.le (.fin 2) (.fin 50) = true ∧ (js "  ").length = 2 ∧ (js " ").length = 2 - 1 ∧
      validateText noShortest (.str (js "  ")) (.num (.fin 2)) (.num (.fin 50)) (.bool true) =
        .ok (js "This field is required.") ∧
      validateText noShortest (.str (js " ")) (.num (.fin 2)) (.num (.fin 50)) (.bool true) =
        .ok (js "This field is required.") ∧
      js "This field is required." ≠ js "" ∧
      js "This field is required." ≠ lengthMessage noShortest (.fin 2) (.fin 50) := by
  decide

/-! ## Theorems: `validateRequired` -/

/-- On a non-empty string `validateRequired` returns the boolean "not blank". -/
theorem validateRequired_of_ne_nil (value : JSString) (h : value ≠ []) :
    validateRequired value = .bool (!isBlank value) := by
  cases value with
  | nil => exact absurd rfl h
  | cons c s =>
    have hb : toBoolean (.str (c :: s)) = true := by simp [toBoolean]
    simp only [validateRequired, hb, if_true, js]
    by_cases hbl : isBlank (c :: s) = true
    · simp [(trim_eq_nil_iff (c :: s)).mpr hbl, hbl]
    · have ht : trim (c :: s) ≠ [] := fun e => hbl ((trim_eq_nil_iff (c :: s)).mp e)
      simp [ht, hbl]

/-- C3, the code at the failing input: `validateRequired('')` returns the
empty string, its own argument, which is not the boolean `false`; on the
inputs of the source's tests it returns the booleans. -/
theorem validateRequired_empty_returns_string :
    validateRequired (js "") = .str (js "") ∧ validateRequired (js "") ≠ .bool false ∧
      typeof (validateRequired (js "")) = js "string" ∧
      validateRequired (js " ") = .bool false ∧ validateRequired (js "Male") = .bool true := by
  decide

/-! ## Theorems: the patterns of `validatePhone`, `validatePostalCode`, `validateEmail` -/

theorem isBlank_eq_false_of_mem (value : JSString) (c : Nat) (hc : c ∈ value)
    (hw : isWhiteSpace c = false) : isBlank value = false := by
  cases hb : isBlank value with
  | false => rfl
  | true =>
    have h := List.all_eq_true.mp hb c hc
    rw [hw] at h
    cases h

theorem isWhiteSpace_of_isDigit (c : Nat) (h : isDigit c = true) : isWhiteSpace c = false := by
  simp only [isDigit, Bool.and_eq_true, decide_eq_true_eq] at h
  simp only [isWhiteSpace, Bool.or_eq_false_iff, Bool.and_eq_false_iff, beq_eq_false_iff_ne,
    decide_eq_false_iff_not]
  omega

theorem phoneRegex_matches_iff (value : JSString) :
    Regex.Matches phoneRegex value ↔
      ∃ a b, value = a ++ 45 :: b ∧ a.length = 5 ∧ b.length = 6 ∧ AllDigits a ∧ AllDigits b := by
  simp only [phoneRegex, Regex.matches_seq_iff, Regex.matches_rep_cls_iff, Regex.matches_chr_iff,
    AllDigits]
  constructor
  · rintro ⟨a, v, rfl, ⟨ha, hda⟩, h, b, rfl, rfl, hb, hdb⟩
    exact ⟨a, b, rfl, ha, hb, hda, hdb⟩
  · rintro ⟨a, b, rfl, ha, hb, hda, hdb⟩
    exact ⟨a, 45 :: b, rfl, ⟨ha, hda⟩, [45], b, rfl, rfl, hb, hdb⟩

theorem phoneShape_iff (value : JSString) :
    PhoneShape value ↔
      ∃ a b, value = a ++ 45 :: b ∧ a.length = 5 ∧ b.length = 6 ∧ AllDigits a ∧ AllDigits b := by
  have hj : js "-" = [45] := by decide
  unfold PhoneShape
  rw [hj]
  constructor
  · rintro ⟨_, a, b, rfl, h⟩
    exact ⟨a, b, by simp, h⟩
  · rintro ⟨a, b, rfl, ha, hb, h⟩
    exact ⟨by simp [ha, hb], a, b, by simp, ha, hb, h⟩

/-- C5. For every string `value`: `validatePhone` returns `''` if and only if
`value` is exactly 12 code units long, five decimal digits, one hyphen, six
decimal digits; every other value that is not blank returns the format
message; every blank value returns `'Phone number is required.'`. -/
theorem validatePhone_spec (value : JSString) :
    (validatePhone value = js "" ↔ PhoneShape value) ∧
    (isBlank value = false → ¬ PhoneShape value →
      validatePhone value = js "Invalid phone number format. Use 07123-456789.") ∧
    (isBlank value = true → validatePhone value = js "Phone number is required.") := by
  have hshape : PhoneShape value ↔ phoneRegex.test value = true := by
    rw [phoneShape_iff, Regex.test_iff, phoneRegex_matches_iff]
  have hnb : PhoneShape value → isBlank value = false := by
    intro h
    obtain ⟨a, b, rfl, -⟩ := (phoneShape_iff value).mp h
    exact isBlank_eq_false_of_mem _ 45 (by simp) (by decide)
  have h1 : js "Phone number is required." ≠ js "" := by decide
  have h2 : js "Invalid phone number format. Use 07123-456789." ≠ js "" := by decide
  refine ⟨?_, ?_, ?_⟩
  · constructor
    · intro h
      unfold validatePhone at h
      rw [toBoolean_validateRequired] at h
      split_ifs at h with hb ht
      · exact absurd h h1
      · exact absurd h h2
      · exact hshape.mpr (by simpa using ht)
    · intro h
      have hb := hnb h
      have ht := hshape.mp h
      simp [validatePhone, toBoolean_validateRequired, hb, ht]
  · intro hb hn
    have ht : phoneRegex.test value = false := by
      cases h : phoneRegex.test value with
      | false => rfl
      | true => exact absurd (hshape.mpr h) hn
    simp [validatePhone, toBoolean_validateRequired, hb, ht]
  · intro hb
    simp [validatePhone, toBoolean_validateRequired, hb]

/-- C5, witness: the phone number of the source's tests. -/
theorem validatePhone_spec_witness :
    isBlank (js "07123456789") = false ∧ ¬ PhoneShape (js "07123456789") ∧
      validatePhone (js "07123456789") = js "Invalid phone number format. Use 07123-456789." :=
  have hn : ¬ PhoneShape (js "07123456789") := fun h => by
    have hl := h.1
    revert hl
    decide
  ⟨by decide, hn, (validatePhone_spec (js "07123456789")).2.1 (by decide) hn⟩

/-- The regular expression `validatePostalCode` selects for `country`. -/
theorem validatePostalCode_of_regex (value country : JSString) (r : Regex)
    (hr : (if (patterns country).truthy then patterns country else patterns (js "default")) =
      .regex r) :
    validatePostalCode value country =
      if isBlank value then .ok (js "Postal/Zip code is required.")
      else if r.test value then .ok (js "")
      else .ok (js "Invalid postal code for " ++ country ++ js ".") := by
  unfold validatePostalCode
  rw [toBoolean_validateRequired]
  simp only [hr]
  cases isBlank value <;> cases r.test value <;> simp

theorem usRegex_matches_iff (value : JSString) :
    Regex.Matches usRegex value ↔ ZipShape value := by
  have hj : js "-" = [45] := by decide
  simp only [usRegex, Regex.matches_seq_iff, Regex.matches_rep_cls_iff, Regex.matches_chr_iff,
    Regex.matches_opt_iff, ZipShape, AllDigits, hj]
  constructor
  · rintro ⟨a, v, rfl, ⟨ha, hda⟩, (⟨u, b, rfl, rfl, hb, hdb⟩ | rfl)⟩
    · exact ⟨a, ha, hda, Or.inr ⟨b, hb, hdb, by simp⟩⟩
    · exact ⟨a, ha, hda, Or.inl (by simp)⟩
  · rintro ⟨a, ha, hda, (rfl | ⟨b, hb, hdb, rfl⟩)⟩
    · exact ⟨value, [], by simp, ⟨ha, hda⟩, Or.inr rfl⟩
    · exact ⟨a, 45 :: b, by simp, ⟨ha, hda⟩, Or.inl ⟨[45], b, rfl, rfl, hb, hdb⟩⟩

/-- C10. For every string `value`, `validatePostalCode(value, 'United States')`
returns `'Postal/Zip code is required.'` if `value` is blank; otherwise it
returns `''` if and only if `value` is five decimal digits, optionally
followed by a hyphen and four decimal digits (so its length is 5 or 10), and
every other value returns `'Invalid postal code for United States.'`. -/
theorem validatePostalCode_us_spec (value : JSString) :
    (isBlank value = true →
      validatePostalCode value (js "United States") =
        .ok (js "Postal/Zip code is required.")) ∧
    (isBlank value = false →
      (validatePostalCode value (js "United States") = .ok (js "") ↔ ZipShape value) ∧
      (ZipShape value → value.length = 5 ∨ value.length = 10) ∧
      (¬ ZipShape value →
        validatePostalCode value (js "United States") =
          .ok (js "Invalid postal code for United States."))) := by
  have hj : js "-" = [45] := by decide
  have hm : js "Invalid postal code for " ++ js "United States" ++ js "." =
      js "Invalid postal code for United States." := by decide
  have hne : js "Invalid postal code for United States." ≠ js "" := by decide
  have hshape : ZipShape value ↔ usRegex.test value = true := by
    rw [Regex.test_iff, usRegex_matches_iff]
  rw [validatePostalCode_of_regex value (js "United States") usRegex rfl, hm]
  refine ⟨fun hb => by simp [hb], fun hb => ⟨?_, ?_, ?_⟩⟩
  · rw [hshape]
    cases ht : usRegex.test value <;> simp [hb, hne]
  · rintro ⟨a, ha, -, (rfl | ⟨b, hb4, -, rfl⟩)⟩
    · exact Or.inl ha
    · right
      simp [hj, ha, hb4]
  · intro hn
    have ht : usRegex.test value = false := by
      cases h : usRegex.test value with
      | false => rfl
      | true => exact absurd (hshape.mpr h) hn
    simp [hb, ht]

/-- C10, witness: the ZIP code with extension of the source's tests. -/
theorem validatePostalCode_us_spec_witness :
    isBlank (js "10001-1234") = false ∧ ZipShape (js "10001-1234") ∧
      validatePostalCode (js "10001-1234") (js "United States") = .ok (js "") :=
  have hz : ZipShape (js "10001-1234") :=
    ⟨js "10001", by decide, by decide, Or.inr ⟨js "1234", by decide, by decide, by decide⟩⟩
  ⟨by decide, hz,
    ((validatePostalCode_us_spec (js "10001-1234")).2 (by decide)).1.mpr hz⟩

theorem isEmailChar_iff (c : Nat) :
    isEmailChar c = true ↔ isWhiteSpace c = false ∧ c ≠ 64 := by
  simp [isEmailChar]

theorem emailRegex_matches_iff (value : JSString) :
    Regex.Matches emailRegex value ↔
      ∃ l x y, value = l ++ 64 :: (x ++ 46 :: y) ∧ l ≠ [] ∧ x ≠ [] ∧ y ≠ [] ∧
        (∀ c ∈ l, isEmailChar c = true) ∧ (∀ c ∈ x, isEmailChar c = true) ∧
        (∀ c ∈ y, isEmailChar c = true) := by
  have h64 : '@'.toNat = 64 := by decide
  have h46 : '.'.toNat = 46 := by decide
  simp only [emailRegex, Regex.matches_seq_iff, Regex.matches_plus_cls_iff,
    Regex.matches_chr_iff, h64, h46]
  constructor
  · rintro ⟨l, _, rfl, ⟨hl, hal⟩, _, _, rfl, rfl, x, _, rfl, ⟨hx, hax⟩, _, y, rfl, rfl, hy, hay⟩
    exact ⟨l, x, y, by simp, hl, hx, hy, hal, hax, hay⟩
  · rintro ⟨l, x, y, rfl, hl, hx, hy, hal, hax, hay⟩
    exact ⟨l, 64 :: (x ++ 46 :: y), rfl, ⟨hl, hal⟩, [64], x ++ 46 :: y, rfl, rfl, x, 46 :: y,
      rfl, ⟨hx, hax⟩, [46], y, rfl, rfl, hy, hay⟩

theorem emailShape_iff (value : JSString) :
    EmailShape value ↔
      ∃ l x y, value = l ++ 64 :: (x ++ 46 :: y) ∧ l ≠ [] ∧ x ≠ [] ∧ y ≠ [] ∧
        (∀ c ∈ l, isEmailChar c = true) ∧ (∀ c ∈ x, isEmailChar c = true) ∧
        (∀ c ∈ y, isEmailChar c = true) := by
  have hat : js "@" = [64] := by decide
  have hdot : js "." = [46] := by decide
  have hws64 : isWhiteSpace 64 = false := by decide
  have hws46 : isWhiteSpace 46 = false := by decide
  unfold EmailShape
  rw [hat, hdot]
  constructor
  · rintro ⟨hws, hcount, l, d, rfl, hl, x, y, rfl, hx, hy⟩
    simp only [List.count_append, List.count_cons, List.count_nil, beq_self_eq_true,
      if_true] at hcount
    have hl0 : l.count 64 = 0 := by omega
    have hx0 : x.count 64 = 0 := by omega
    have hy0 : y.count 64 = 0 := by omega
    have key : ∀ t : JSString, t.count 64 = 0 → (∀ c ∈ t, c ∈ l ++ [64] ++ (x ++ [46] ++ y)) →
        ∀ c ∈ t, isEmailChar c = true := by
      intro t ht hsub c hc
      rw [isEmailChar_iff]
      refine ⟨hws c (hsub c hc), ?_⟩
      rintro rfl
      exact (List.count_eq_zero.mp ht) hc
    refine ⟨l, x, y, by simp, hl, hx, hy, key l hl0 ?_, key x hx0 ?_, key y hy0 ?_⟩
    · intro c hc
      simp [hc]
    · intro c hc
      simp [hc]
    · intro c hc
      simp [hc]
  · rintro ⟨l, x, y, rfl, hl, hx, hy, hal, hax, hay⟩
    have hno : ∀ t : JSString, (∀ c ∈ t, isEmailChar c = true) → t.count 64 = 0 := by
      intro t ht
      rw [List.count_eq_zero]
      intro hmem
      exact ((isEmailChar_iff 64).mp (ht 64 hmem)).2 rfl
    refine ⟨?_, ?_, l, x ++ 46 :: y, by simp, hl, x, y, by simp, hx, hy⟩
    · intro c hc
      simp only [List.mem_append, List.mem_cons] at hc
      rcases hc with hc | rfl | hc | rfl | hc
      · exact ((isEmailChar_iff c).mp (hal c hc)).1
      · exact hws64
      · exact ((isEmailChar_iff c).mp (hax c hc)).1
      · exact hws46
      · exact ((isEmailChar_iff c).mp (hay c hc)).1
    · simp [List.count_append, List.count_cons, hno l hal, hno x hax, hno y hay]

/-- C4. For every string `value`, `validateEmail` returns `'Email is
required.'` if `value` is blank; otherwise it returns `''` exactly when `value`
contains no white space, contains exactly one `@`, has at least one code unit
before it, and the part after it holds a `.` that is neither its first nor its
last code unit; in every other case it returns `'Invalid email format.'`.
`'a@b.c'` is valid, `'invalid'` and `'invalid@'` are rejected. -/
theorem validateEmail_spec (value : JSString) :
    (isBlank value = true → validateEmail value = js "Email is required.") ∧
    (isBlank value = false →
      (validateEmail value = js "" ↔ EmailShape value) ∧
      (¬ EmailShape value → validateEmail value = js "Invalid email format.")) ∧
    validateEmail (js "a@b.c") = js "" ∧
    validateEmail (js "invalid") = js "Invalid email format." ∧
    validateEmail (js "invalid@") = js "Invalid email format." := by
  have hshape : EmailShape value ↔ emailRegex.test value = true := by
    rw [emailShape_iff, Regex.test_iff, emailRegex_matches_iff]
  have hne : js "Invalid email format." ≠ js "" := by decide
  refine ⟨?_, ?_, by decide, by decide, by decide⟩
  · intro hb
    simp [validateEmail, toBoolean_validateRequired, hb]
  · intro hb
    constructor
    · rw [hshape]
      cases ht : emailRegex.test value <;>
        simp [validateEmail, toBoolean_validateRequired, hb, ht, hne]
    · intro hn
      have ht : emailRegex.test value = false := by
        cases h : emailRegex.test value with
        | false => rfl
        | true => exact absurd (hshape.mpr h) hn
      simp [validateEmail, toBoolean_validateRequired, hb, ht]

/-- C4, witness: the address of the source's tests has the shape and is valid. -/
theorem validateEmail_spec_witness :
    isBlank (js "john.doe@example.com") = false ∧ EmailShape (js "john.doe@example.com") ∧
      validateEmail (js "john.doe@example.com") = js "" :=
  have hv : validateEmail (js "john.doe@example.com") = js "" := by decide
  ⟨by decide, ((validateEmail_spec (js "john.doe@example.com")).2.1 (by decide)).1.mp hv, hv⟩

theorem ukRegex_matches_iff (value : JSString) : Regex.Matches ukRegex value ↔ UKShape value := by
  have hsp : ' '.toNat = 32 := by decide
  have hj : js " " = [32] := by decide
  simp only [ukRegex, Regex.matches_seq_iff, Regex.matches_repRange_cls_iff _ 1 2 (by decide),
    Regex.matches_rep_cls_iff, Regex.matches_cls_iff, Regex.matches_opt_iff,
    Regex.matches_chr_iff, UKShape, hsp, hj]
  constructor
  · rintro ⟨a, _, rfl, ⟨⟨ha1, ha2⟩, hau⟩, _, _, rfl, ⟨d1, rfl, hd1⟩, o, _, rfl, ho, sp, _, rfl,
      hsp', _, t, rfl, ⟨d2, rfl, hd2⟩, ht, htu⟩
    match t, ht, htu with
    | [l1, l2], _, htu =>
      refine ⟨a, d1, o, sp, d2, l1, l2, by simp, by omega, hau, hd1, ?_, ?_, hd2,
        htu l1 (by simp), htu l2 (by simp)⟩
      · rcases ho with ho | ho
        · exact Or.inr ho
        · exact Or.inl ho
      · rcases hsp' with h | h
        · exact Or.inr h
        · exact Or.inl h
  · rintro ⟨a, d1, o, sp, d2, l1, l2, rfl, ha, hau, hd1, ho, hsp', hd2, hl1, hl2⟩
    refine ⟨a, [d1] ++ (o ++ (sp ++ [d2, l1, l2])), by simp, ⟨by omega, hau⟩, [d1], _, rfl,
      ⟨d1, rfl, hd1⟩, o, _, rfl, ?_, sp, _, rfl, ?_, [d2], [l1, l2], rfl, ⟨d2, rfl, hd2⟩,
      rfl, ?_⟩
    · rcases ho with ho | ho
      · exact Or.inr ho
      · exact Or.inl ho
    · rcases hsp' with h | h
      · exact Or.inr h
      · exact Or.inl h
    · intro c hc
      simp only [List.mem_cons, List.mem_singleton, List.not_mem_nil, or_false] at hc
      rcases hc with rfl | rfl
      · exact hl1
      · exact hl2

theorem isBlank_eq_false_of_ukShape (value : JSString) (h : UKShape value) :
    isBlank value = false := by
  obtain ⟨a, d1, o, sp, d2, l1, l2, rfl, -, -, hd1, -⟩ := h
  exact isBlank_eq_false_of_mem _ d1 (by simp) (isWhiteSpace_of_isDigit d1 hd1)

/-- C8, as amended. For every string `value` that is not blank,
`validatePostalCode(value, 'United Kingdom')` returns `''` if and only if
`value` is one or two capital letters `A-Z`, one digit, optionally one capital
letter or digit, optionally a space, one digit, two capital letters; every
other such value returns `'Invalid postal code for United Kingdom.'`.
`'SW1A 1AA'` is valid and `'12345'` is rejected. -/
theorem validatePostalCode_uk_spec (value : JSString) (hb : isBlank value = false) :
    (validatePostalCode value (js "United Kingdom") = .ok (js "") ↔ UKShape value) ∧
    (¬ UKShape value →
      validatePostalCode value (js "United Kingdom") =
        .ok (js "Invalid postal code for United Kingdom.")) ∧
    validatePostalCode (js "SW1A 1AA") (js "United Kingdom") = .ok (js "") ∧
    validatePostalCode (js "12345") (js "United Kingdom") =
      .ok (js "Invalid postal code for United Kingdom.") := by
  have hm : js "Invalid postal code for " ++ js "United Kingdom" ++ js "." =
      js "Invalid postal code for United Kingdom." := by decide
  have hne : js "Invalid postal code for United Kingdom." ≠ js "" := by decide
  have hshape : UKShape value ↔ ukRegex.test value = true := by
    rw [Regex.test_iff, ukRegex_matches_iff]
  refine ⟨?_, ?_, by decide, by decide⟩
  · rw [validatePostalCode_of_regex value (js "United Kingdom") ukRegex rfl, hm, hshape]
    cases ht : ukRegex.test value <;> simp [hb, hne]
  · intro hn
    have ht : ukRegex.test value = false := by
      cases h : ukRegex.test value with
      | false => rfl
      | true => exact absurd (hshape.mpr h) hn
    rw [validatePostalCode_of_regex value (js "United Kingdom") ukRegex rfl, hm]
    simp [hb, ht]

/-- C8, witness: the postcode of the source's full-form test. -/
theorem validatePostalCode_uk_spec_witness :
    isBlank (js "AB12 3CD") = false ∧ UKShape (js "AB12 3CD") ∧
      validatePostalCode (js "AB12 3CD") (js "United Kingdom") = .ok (js "") :=
  have hv : validatePostalCode (js "AB12 3CD") (js "United Kingdom") = .ok (js "") := by decide
  ⟨by decide, (validatePostalCode_uk_spec (js "AB12 3CD") (by decide)).1.mp hv, hv⟩

theorem space_mem_of_ukShapeStated (value : JSString) (h : UKShapeStated value) :
    32 ∈ value := by
  have hj : js " " = [32] := by decide
  obtain ⟨a, d1, o, d2, l1, l2, rfl, -⟩ := h
  simp [hj]

/-- C8, counterexample. `'SW1A1AA'` has no space, so it has not the stated
shape, and is accepted; `'sw1a 1aa'` has the stated shape, its letters being
small, and is rejected. -/
theorem validatePostalCode_uk_stated_shape_fails :
    (isBlank (js "SW1A1AA") = false ∧ ¬ UKShapeStated (js "SW1A1AA") ∧
      validatePostalCode (js "SW1A1AA") (js "United Kingdom") = .ok (js "")) ∧
    (isBlank (js "sw1a 1aa") = false ∧ UKShapeStated (js "sw1a 1aa") ∧
      validatePostalCode (js "sw1a 1aa") (js "United Kingdom") =
        .ok (js "Invalid postal code for United Kingdom.")) := by
  refine ⟨⟨by decide, ?_, by decide⟩, by decide, ?_, by decide⟩
  · intro h
    have hmem := space_mem_of_ukShapeStated _ h
    revert hmem
    decide
  · exact ⟨js "sw", 49, js "a", 49, 97, 97, by decide, Or.inr (by decide), by decide,
      by decide, Or.inr ⟨97, by decide, by decide⟩, by decide, by decide, by decide⟩

theorem isDefaultPostalChar_iff (c : Nat) :
    isDefaultPostalChar c = true ↔
      (isLetter c = true ∨ isDigit c = true ∨ isWhiteSpace c = true ∨ c = 45) := by
  simp [isDefaultPostalChar, isLetter, or_assoc]

theorem defaultRegex_matches_iff (value : JSString) :
    Regex.Matches defaultRegex value ↔ DefaultShape value := by
  simp only [defaultRegex, Regex.matches_repRange_cls_iff _ 3 10 (by decide), DefaultShape,
    isDefaultPostalChar_iff]

/-- A country that is no own key of `patterns` other than `default` and no
inherited key selects the default pattern. -/
theorem patterns_fallback (country : JSString) (hus : country ≠ js "United States")
    (huk : country ≠ js "United Kingdom") (hproto : country ∉ objectPrototypeKeys) :
    (if (patterns country).truthy then patterns country else patterns (js "default")) =
      .regex defaultRegex := by
  have hd : patterns (js "default") = .regex defaultRegex := rfl
  by_cases hdef : country = js "default"
  · rw [hdef, hd]
    rfl
  · have hu : patterns country = .undefined := by
      simp [patterns, hus, huk, hdef, hproto]
    rw [hu, hd]
    rfl

/-- C9, as amended. For every country string that is not `'United States'`,
not `'United Kingdom'` and not the name of a property inherited from
`Object.prototype`, and every string `value` that is not blank,
`validatePostalCode(value, country)` returns `''` if and only if `value` is 3
to 10 code units long and each is a letter, a digit, a white space character or
a hyphen; otherwise it returns `'Invalid postal code for '`, the country
verbatim, and `'.'`. -/
theorem validatePostalCode_default_spec (value country : JSString)
    (hus : country ≠ js "United States") (huk : country ≠ js "United Kingdom")
    (hproto : country ∉ objectPrototypeKeys) (hb : isBlank value = false) :
    (validatePostalCode value country = .ok (js "") ↔ DefaultShape value) ∧
    (¬ DefaultShape value →
      validatePostalCode value country =
        .ok (js "Invalid postal code for " ++ country ++ js ".")) := by
  have hne : js "Invalid postal code for " ++ country ++ js "." ≠ js "" := by
    intro h
    have h2 := (List.append_eq_nil.mp h).2
    revert h2
    decide
  have hshape : DefaultShape value ↔ defaultRegex.test value = true := by
    rw [Regex.test_iff, defaultRegex_matches_iff]
  rw [validatePostalCode_of_regex value country defaultRegex
    (patterns_fallback country hus huk hproto)]
  constructor
  · rw [hshape]
    cases ht : defaultRegex.test value
    · simp only [hb, Bool.false_eq_true, if_false, Except.ok.injEq]
      exact ⟨fun h => absurd h hne, fun h => absurd h (by simp)⟩
    · simp [hb]
  · intro hn
    have ht : defaultRegex.test value = false := by
      cases h : defaultRegex.test value with
      | false => rfl
      | true => exact absurd (hshape.mpr h) hn
    simp [hb, ht]

/-- C9, witness: the unknown country of the source's tests. -/
theorem validatePostalCode_default_spec_witness :
    js "Unknown" ≠ js "United States" ∧ js "Unknown" ≠ js "United Kingdom" ∧
      js "Unknown" ∉ objectPrototypeKeys ∧ isBlank (js "12345") = false ∧
      DefaultShape (js "12345") ∧
      validatePostalCode (js "12345") (js "Unknown") = .ok (js "") :=
  ⟨by decide, by decide, by decide, by decide, by decide,
    (validatePostalCode_default_spec (js "12345") (js "Unknown") (by decide) (by decide)
      (by decide) (by decide)).1.mpr (by decide)⟩

/-- C9, counterexample. Under the country `'Unknown'` the value `'12'`, a tab,
`'45'` is accepted although a tab is none of letter, digit, space, hyphen; and
under the countries `'constructor'` and `'toString'`, which are not in the
table, no message is returned at all: the lookup finds the inherited property
and the call of `test` on it throws. -/
theorem validatePostalCode_default_stated_fails :
    (isBlank (js "12\t45") = false ∧ ¬ DefaultShapeStated (js "12\t45") ∧
      validatePostalCode (js "12\t45") (js "Unknown") = .ok (js "")) ∧
    (js "constructor" ≠ js "United States" ∧ js "constructor" ≠ js "United Kingdom" ∧
      isBlank (js "12345") = false ∧ DefaultShapeStated (js "12345") ∧
      validatePostalCode (js "12345") (js "constructor") =
        .error (js "TypeError: regex.test is not a function") ∧
      validatePostalCode (js "12345") (js "toString") =
        .error (js "TypeError: regex.test is not a function")) := by
  decide

/-! ## Theorems: `validateDateOfBirth` -/

theorem JSNum.lt_nan_right (a : JSNum) : JSNum.lt a .nan = false := by
  cases a <;> rfl

theorem JSNum.lt_nan_left (a : JSNum) : JSNum.lt .nan a = false := by
  cases a <;> rfl

theorem JSNum.sub_nan_right (a : JSNum) : JSNum.sub a .nan = .nan := by
  cases a <;> rfl

theorem JSNum.lt_irrefl (a : JSNum) : JSNum.lt a a = false := by
  cases a <;> simp [JSNum.lt]

/-- The body of `validateDateOfBirth` on a value that is not blank. -/
theorem validateDateOfBirth_of_not_blank (env : DateEnv) (value : JSString)
    (hb : isBlank value = false) :
    validateDateOfBirth env value =
      if JSNum.gt (timeToNum (env.setHoursZero (env.newDate value)))
          (timeToNum (env.setHoursZero (some env.now))) then
        js "Date of birth cannot be in the future."
      else if JSNum.lt (JSNum.sub (env.getFullYear (env.setHoursZero (some env.now)))
            (env.getFullYear (env.setHoursZero (env.newDate value)))) (.fin 0) ||
          JSNum.gt (JSNum.sub (env.getFullYear (env.setHoursZero (some env.now)))
            (env.getFullYear (env.setHoursZero (env.newDate value)))) (.fin 120) then
        js "Please enter a valid date of birth."
      else js "" := by
  simp [validateDateOfBirth, toBoolean_validateRequired, hb]

/-- C6, the code on unparseable input. For every string `value` that is not
blank and that `Date.parse` does not recognise, `validateDateOfBirth` returns
`''`: the invalid date passes both checks, since every comparison with `NaN`
is false. -/
theorem validateDateOfBirth_unparseable (env : DateEnv) (value : JSString)
    (hb : isBlank value = false) (hp : env.parse value = none) :
    validateDateOfBirth env value = js "" := by
  have hd : env.newDate value = none := by simp [DateEnv.newDate, hp]
  have h1 : env.setHoursZero none = none := rfl
  have h2 : env.getFullYear none = .nan := rfl
  have h3 : timeToNum none = .nan := rfl
  rw [validateDateOfBirth_of_not_blank env value hb, hd, h1, h2, h3]
  simp [JSNum.gt, JSNum.lt_nan_right, JSNum.lt_nan_left, JSNum.sub_nan_right]

/-- C6, witness: the string `'not-a-date'`. -/
theorem validateDateOfBirth_unparseable_witness :
    isBlank (js "not-a-date") = false ∧
      (isoEnv noon20261104 0).parse (js "not-a-date") = none ∧
      validateDateOfBirth (isoEnv noon20261104 0) (js "not-a-date") = js "" :=
  ⟨by decide, by decide,
    validateDateOfBirth_unparseable (isoEnv noon20261104 0) (js "not-a-date") (by decide)
      (by decide)⟩

/-- C7, the code at the failing inputs. On 4 November 2026, noon UTC, in a
zone five hours west of UTC, the local date is 4 November 2026. The value
`'2026-11-05'` writes the date of the next day and is read as that day; as
stated it is in the future, and the code returns `''`. The value `'1906-01-01'`
has the calendar-year difference 120 and is valid as stated, and the code
returns the range message. In UTC the code returns what is stated for both. -/
theorem validateDateOfBirth_west_of_utc :
    (isoEnv noon20261104 fiveHoursWest).localDay noon20261104 =
        (CalendarDate.mk 2026 11 4).dayNumber ∧
    (writtenDate (js "2026-11-05") = some ⟨2026, 11, 5⟩ ∧
      (isoEnv noon20261104 fiveHoursWest).parse (js "2026-11-05") =
        some (makeDate (CalendarDate.mk 2026 11 5).dayNumber 0) ∧
      dateOfBirthStated ⟨2026, 11, 4⟩ ⟨2026, 11, 5⟩ =
        js "Date of birth cannot be in the future." ∧
      validateDateOfBirth (isoEnv noon20261104 fiveHoursWest) (js "2026-11-05") = js "" ∧
      validateDateOfBirth (isoEnv noon20261104 0) (js "2026-11-05") =
        js "Date of birth cannot be in the future.") ∧
    (writtenDate (js "1906-01-01") = some ⟨1906, 1, 1⟩ ∧
      (isoEnv noon20261104 fiveHoursWest).parse (js "1906-01-01") =
        some (makeDate (CalendarDate.mk 1906 1 1).dayNumber 0) ∧
      dateOfBirthStated ⟨2026, 11, 4⟩ ⟨1906, 1, 1⟩ = js "" ∧
      validateDateOfBirth (isoEnv noon20261104 fiveHoursWest) (js "1906-01-01") =
        js "Please enter a valid date of birth." ∧
      validateDateOfBirth (isoEnv noon20261104 0) (js "1906-01-01") = js "") := by
  refine ⟨by decide!, ⟨by decide, by decide!, by decide, by decide!, by decide!⟩,
    ⟨by decide, by decide!, by decide, by decide!, by decide!⟩⟩

/-! ## Theorems: the `typeof` guard of `validateText` -/

theorem typeof_eq_string_iff (v : JSVal) : typeof v = js "string" ↔ ∃ s, v = .str s := by
  cases v <;> simp [typeof] <;> decide

theorem typeof_eq_number_iff (v : JSVal) : typeof v = js "number" ↔ ∃ n, v = .num n := by
  cases v <;> simp [typeof] <;> decide

theorem typeof_eq_boolean_iff (v : JSVal) : typeof v = js "boolean" ↔ ∃ b, v = .bool b := by
  cases v <;> simp [typeof] <;> decide

/-- C11. `validateText` throws `'Invalid parameters for validateText'` if and
only if its arguments are not exactly (string, number, number, boolean): for
every argument tuple in which `value` is not a string, or `minLen` or `maxLen`
is not a number, or `required` is not a boolean, it throws; for every
well-typed tuple it returns `''`, the required message or the length
message. -/
theorem validateText_throws_iff (shortest : ℚ → JSString)
    (value minLen maxLen required : JSVal) :
    (validateText shortest value minLen maxLen required =
        .error (js "Invalid parameters for validateText") ↔
      ¬ (typeof value = js "string" ∧ typeof minLen = js "number" ∧
        typeof maxLen = js "number" ∧ typeof required = js "boolean")) ∧
    ((typeof value = js "string" ∧ typeof minLen = js "number" ∧
        typeof maxLen = js "number" ∧ typeof required = js "boolean") →
      validateText shortest value minLen maxLen required = .ok (js "") ∨
      validateText shortest value minLen maxLen required =
        .ok (js "This field is required.") ∨
      ∃ a b, minLen = .num a ∧ maxLen = .num b ∧
        validateText shortest value minLen maxLen required =
          .ok (lengthMessage shortest a b)) := by
  have hret : ∀ (v : JSString) (a b : JSNum) (r : Bool),
      validateText shortest (.str v) (.num a) (.num b) (.bool r) = .ok (js "") ∨
      validateText shortest (.str v) (.num a) (.num b) (.bool r) =
        .ok (js "This field is required.") ∨
      validateText shortest (.str v) (.num a) (.num b) (.bool r) =
        .ok (lengthMessage shortest a b) := by
    intro v a b r
    rw [validateText_of_typed]
    split_ifs <;> simp
  by_cases ht : typeof value = js "string" ∧ typeof minLen = js "number" ∧
      typeof maxLen = js "number" ∧ typeof required = js "boolean"
  · obtain ⟨h1, h2, h3, h4⟩ := ht
    obtain ⟨v, rfl⟩ := (typeof_eq_string_iff value).mp h1
    obtain ⟨a, rfl⟩ := (typeof_eq_number_iff minLen).mp h2
    obtain ⟨b, rfl⟩ := (typeof_eq_number_iff maxLen).mp h3
    obtain ⟨r, rfl⟩ := (typeof_eq_boolean_iff required).mp h4
    refine ⟨⟨fun h => ?_, fun h => absurd ⟨h1, h2, h3, h4⟩ h⟩, fun _ => ?_⟩
    · rcases hret v a b r with h' | h' | h' <;> rw [h'] at h <;> cases h
    · rcases hret v a b r with h' | h' | h'
      · exact Or.inl h'
      · exact Or.inr (Or.inl h')
      · exact Or.inr (Or.inr ⟨a, b, rfl, rfl, h'⟩)
  · refine ⟨⟨fun _ => ht, fun _ => ?_⟩, fun h => absurd h ht⟩
    have hg : (typeof value != js "string" || typeof minLen != js "number" ||
        typeof maxLen != js "number" || typeof required != js "boolean") = true := by
      by_contra hcon
      apply ht
      simp only [Bool.or_eq_true, bne_iff_ne, ne_eq, not_or, not_not] at hcon
      exact ⟨hcon.1.1.1, hcon.1.1.2, hcon.1.2, hcon.2⟩
    unfold validateText
    rw [if_pos hg]

/-- C11, witness: a well-typed call returns, a call with `undefined` for the
value throws. -/
theorem validateText_throws_iff_witness :
    (validateText noShortest (.str (js "John")) (.num (.fin 2)) (.num (.fin 50)) (.bool true) =
        .ok (js "")) ∧
      validateText noShortest .undefined (.num (.fin 2)) (.num (.fin 50)) (.bool true) =
        .error (js "Invalid parameters for validateText") :=
  ⟨by decide,
    (validateText_throws_iff noShortest .undefined (.num (.fin 2)) (.num (.fin 50))
      (.bool true)).1.mpr (by decide)⟩

/-! ## Theorems: `validateField` -/

theorem errorId_ne (fieldId : JSString) : errorId fieldId ≠ fieldId := by
  intro h
  have hl := congrArg List.length h
  have h6 : (js "error-").length = 6 := by decide
  simp [errorId, h6] at hl

/-- An identifier outside the table differs from each of the eleven. -/
theorem ne_of_not_mem_fieldIds (fieldId : JSString) (h : fieldId ∉ fieldIds) :
    (fieldId ≠ js "fName" ∧ fieldId ≠ js "lName" ∧ fieldId ≠ js "gender" ∧
      fieldId ≠ js "dateOfBirth") ∧
    (fieldId ≠ js "address1" ∧ fieldId ≠ js "city" ∧ fieldId ≠ js "postzipcode" ∧
      fieldId ≠ js "country") ∧
    (fieldId ≠ js "email" ∧ fieldId ≠ js "phone" ∧ fieldId ≠ js "terms") := by
  refine ⟨⟨?_, ?_, ?_, ?_⟩, ⟨?_, ?_, ?_, ?_⟩, ⟨?_, ?_, ?_⟩⟩ <;>
    · intro he
      apply h
      rw [he]
      decide

/-- The `switch` has no case for an identifier outside the table. -/
theorem switchMessage_of_not_mem (shortest : ℚ → JSString) (env : DateEnv) (doc : Document)
    (fieldId : JSString) (element : Option Element) (h : fieldId ∉ fieldIds) :
    switchMessage shortest env doc fieldId element = .ok (js "") := by
  obtain ⟨⟨h1, h2, h3, h4⟩, ⟨h5, h6, h7, h8⟩, ⟨h9, h10, h11⟩⟩ :=
    ne_of_not_mem_fieldIds fieldId h
  simp only [switchMessage, h1, h2, h3, h4, h5, h6, h7, h8, h9, h10, h11, or_self, if_false]

theorem ruleMessage_of_not_mem (shortest : ℚ → JSString) (env : DateEnv)
    (fieldId value : JSString) (checked : Bool) (country : JSString) (h : fieldId ∉ fieldIds) :
    ruleMessage shortest env fieldId value checked country = .ok (js "") := by
  obtain ⟨⟨h1, h2, h3, h4⟩, ⟨h5, h6, h7, h8⟩, ⟨h9, h10, h11⟩⟩ :=
    ne_of_not_mem_fieldIds fieldId h
  simp only [ruleMessage, h1, h2, h3, h4, h5, h6, h7, h8, h9, h10, h11, or_self, if_false]

/-- On an element that exists the `switch` computes the rule table. -/
theorem switchMessage_eq_ruleMessage (shortest : ℚ → JSString) (env : DateEnv)
    (doc : Document) (fieldId : JSString) (el : Element)
    (hc : fieldId = js "postzipcode" → (doc (js "country")).isSome = true) :
    switchMessage shortest env doc fieldId (some el) =
      ruleMessage shortest env fieldId el.value el.checked (countryValue doc) := by
  by_cases hm : fieldId ∈ fieldIds
  · simp only [fieldIds, List.mem_cons, List.mem_singleton, List.not_mem_nil, or_false] at hm
    rcases hm with rfl | rfl | rfl | rfl | rfl | rfl | rfl | rfl | rfl | rfl | rfl
    · rfl
    · rfl
    · rfl
    · rfl
    · rfl
    · rfl
    · have h := hc rfl
      cases hd : doc (js "country") with
      | none => simp [hd] at h
      | some c =>
        have h1 : switchMessage shortest env doc (js "postzipcode") (some el) =
            match readValue (doc (js "country")) with
            | .error e => .error e
            | .ok c => validatePostalCode el.value c := rfl
        have h2 : ruleMessage shortest env (js "postzipcode") el.value el.checked
            (countryValue doc) = validatePostalCode el.value (countryValue doc) := rfl
        rw [h1, h2]
        simp only [countryValue, readValue, hd]
    · rfl
    · rfl
    · rfl
    · rfl
  · rw [switchMessage_of_not_mem shortest env doc fieldId (some el) hm,
      ruleMessage_of_not_mem shortest env fieldId el.value el.checked (countryValue doc) hm]

/-- No message but that of `postzipcode` depends on the country. -/
theorem ruleMessage_country_irrelevant (shortest : ℚ → JSString) (env : DateEnv)
    (fieldId value : JSString) (checked : Bool) (c1 c2 : JSString)
    (hp : fieldId ≠ js "postzipcode") :
    ruleMessage shortest env fieldId value checked c1 =
      ruleMessage shortest env fieldId value checked c2 := by
  by_cases hm : fieldId ∈ fieldIds
  · simp only [fieldIds, List.mem_cons, List.mem_singleton, List.not_mem_nil, or_false] at hm
    rcases hm with rfl | rfl | rfl | rfl | rfl | rfl | rfl | rfl | rfl | rfl | rfl
    · rfl
    · rfl
    · rfl
    · rfl
    · rfl
    · rfl
    · exact absurd rfl hp
    · rfl
    · rfl
    · rfl
    · rfl
  · rw [ruleMessage_of_not_mem shortest env fieldId value checked c1 hm,
      ruleMessage_of_not_mem shortest env fieldId value checked c2 hm]

/-- The value `validateField` returns for a message and the document it
leaves. -/
theorem validateField_of_message (shortest : ℚ → JSString) (env : DateEnv) (doc : Document)
    (fieldId : JSString) (el span : Element) (msg : JSString) (hel : doc fieldId = some el)
    (hspan : doc (errorId fieldId) = some span)
    (hmsg : switchMessage shortest env doc fieldId (some el) = .ok msg) :
    validateField shortest env doc fieldId =
      .ok (msg.isEmpty, reported doc fieldId el span msg) := by
  unfold validateField
  simp only [hel, hspan, hmsg, reported, toBoolean, Bool.not_not]

/-- C12. For every field-value source, that is every document holding the
field, its error span and, for `postzipcode`, the country field:
`validateField(fieldId)` computes its message by the rule table and returns
true iff the message is empty, reporting the message and the invalid flag. A
blank last name is valid, and the value of the country field enters the message
of no field but `postzipcode`. -/
theorem validateField_rule_table (shortest : ℚ → JSString) (env : DateEnv) (doc : Document)
    (fieldId : JSString) (el span : Element) (hel : doc fieldId = some el)
    (hspan : doc (errorId fieldId) = some span)
    (hc : fieldId = js "postzipcode" → (doc (js "country")).isSome = true) :
    (validateField shortest env doc fieldId =
      match ruleMessage shortest env fieldId el.value el.checked (countryValue doc) with
      | .error e => .error e
      | .ok msg => .ok (msg.isEmpty, reported doc fieldId el span msg)) ∧
    (∀ value : JSString, ∀ checked : Bool, ∀ country : JSString, isBlank value = true →
      ruleMessage shortest env (js "lName") value checked country = .ok (js "")) ∧
    (∀ value : JSString, ∀ checked : Bool, ∀ c1 c2 : JSString, fieldId ≠ js "postzipcode" →
      ruleMessage shortest env fieldId value checked c1 =
        ruleMessage shortest env fieldId value checked c2) := by
  refine ⟨?_, ?_, ?_⟩
  · have hs := switchMessage_eq_ruleMessage shortest env doc fieldId el hc
    cases hr : ruleMessage shortest env fieldId el.value el.checked (countryValue doc) with
    | error e =>
      rw [hr] at hs
      simp only [validateField, hel, hs]
    | ok msg =>
      rw [hr] at hs
      exact validateField_of_message shortest env doc fieldId el span msg hel hspan hs
  · intro value checked country hb
    have h1 : ruleMessage shortest env (js "lName") value checked country =
        validateText shortest (.str value) (.num (.fin 2)) (.num (.fin 50)) (.bool false) := rfl
    rw [h1, validateText_of_typed]
    simp [hb]
  · intro value checked c1 c2 hp
    exact ruleMessage_country_irrelevant shortest env fieldId value checked c1 c2 hp

/-- C12, witness: the postal code field of the source's first full-form test. -/
theorem validateField_rule_table_witness :
    (validateField noShortest (isoEnv noon20261104 0) (formDocument validForm)
        (js "postzipcode")).map Prod.fst = .ok true ∧
      ruleMessage noShortest (isoEnv noon20261104 0) (js "postzipcode") (js "AB12 3CD") false
        (js "United Kingdom") = .ok (js "") :=
  ⟨by
    rw [(validateField_rule_table noShortest (isoEnv noon20261104 0) (formDocument validForm)
      (js "postzipcode") (field (js "AB12 3CD") false) (field [] false) (by decide) (by decide)
      (fun _ => by decide)).1]
    decide,
   by decide⟩

/-! ### What a call of `validateField` reads and writes -/

theorem mem_toggle_iff (classList : List JSString) (token : JSString) (force : Bool) :
    token ∈ toggle classList token force ↔ force = true := by
  unfold toggle
  cases force
  · simp
  · by_cases h : token ∈ classList <;> simp [h]

theorem toggle_toggle (classList : List JSString) (token : JSString) (force : Bool) :
    toggle (toggle classList token force) token force = toggle classList token force := by
  cases force
  · simp [toggle, List.filter_filter]
  · by_cases h : token ∈ classList <;> simp [toggle, h]

/-- A call that returns has found the element and the span, has computed a
message, and leaves the document reported. -/
theorem validateField_ok_inv (shortest : ℚ → JSString) (env : DateEnv) (doc doc' : Document)
    (fieldId : JSString) (b : Bool)
    (h : validateField shortest env doc fieldId = .ok (b, doc')) :
    ∃ el span msg, doc fieldId = some el ∧ doc (errorId fieldId) = some span ∧
      fieldMessage shortest env doc fieldId = .ok msg ∧ b = msg.isEmpty ∧
      doc' = reported doc fieldId el span msg := by
  unfold validateField at h
  unfold fieldMessage
  cases hm : switchMessage shortest env doc fieldId (doc fieldId) with
  | error e => simp [hm] at h
  | ok msg =>
    cases hs : doc (errorId fieldId) with
    | none => simp [hm, hs] at h
    | some span =>
      cases he : doc fieldId with
      | none =>
        rw [he] at hm
        simp [hm, hs, he] at h
      | some el =>
        rw [he] at hm
        simp only [hm, hs, he, toBoolean, Bool.not_not, Except.ok.injEq, Prod.mk.injEq] at h
        exact ⟨el, span, msg, rfl, rfl, rfl, h.1.symm, h.2.symm⟩

/-- The converse: element, span and message give the returned pair. -/
theorem validateField_ok_of (shortest : ℚ → JSString) (env : DateEnv) (doc : Document)
    (fieldId : JSString) (el span : Element) (msg : JSString) (hel : doc fieldId = some el)
    (hspan : doc (errorId fieldId) = some span)
    (hmsg : fieldMessage shortest env doc fieldId = .ok msg) :
    validateField shortest env doc fieldId =
      .ok (msg.isEmpty, reported doc fieldId el span msg) := by
  unfold fieldMessage at hmsg
  rw [hel] at hmsg
  exact validateField_of_message shortest env doc fieldId el span msg hel hspan hmsg

/-- Reporting a field changes no value and no checked state. -/
theorem inputs_reported (doc : Document) (fieldId : JSString) (el span : Element)
    (msg : JSString) (hel : doc fieldId = some el) (hspan : doc (errorId fieldId) = some span) :
    inputs (reported doc fieldId el span msg) = inputs doc := by
  funext id
  unfold inputs reported Document.set
  by_cases h1 : id = fieldId
  · subst h1
    simp [hel]
  · by_cases h2 : id = errorId fieldId
    · subst h2
      simp [h1, hspan]
    · simp [h1, h2]

theorem readValue_eq_of_inputs (doc doc' : Document) (h : inputs doc = inputs doc')
    (id : JSString) : readValue (doc id) = readValue (doc' id) := by
  have hi := congrFun h id
  unfold inputs at hi
  cases hd : doc id <;> cases hd' : doc' id <;> simp_all [readValue]

theorem readChecked_eq_of_inputs (doc doc' : Document) (h : inputs doc = inputs doc')
    (id : JSString) : readChecked (doc id) = readChecked (doc' id) := by
  have hi := congrFun h id
  unfold inputs at hi
  cases hd : doc id <;> cases hd' : doc' id <;> simp_all [readChecked]

/-- The message of a field depends on the values and checked states only. -/
theorem fieldMessage_eq_of_inputs (shortest : ℚ → JSString) (env : DateEnv)
    (doc doc' : Document) (h : inputs doc = inputs doc') (fieldId : JSString) :
    fieldMessage shortest env doc fieldId = fieldMessage shortest env doc' fieldId := by
  unfold fieldMessage switchMessage
  rw [readValue_eq_of_inputs doc doc' h fieldId, readChecked_eq_of_inputs doc doc' h fieldId,
    readValue_eq_of_inputs doc doc' h (js "country")]

theorem isSome_eq_of_inputs (doc doc' : Document) (h : inputs doc = inputs doc')
    (id : JSString) : (doc id).isSome = (doc' id).isSome := by
  have hi := congrFun h id
  unfold inputs at hi
  cases hd : doc id <;> cases hd' : doc' id <;> simp_all

/-- The outcome of a field depends on the values and checked states only. -/
theorem fieldOutcome_eq_of_inputs (shortest : ℚ → JSString) (env : DateEnv)
    (doc doc' : Document) (h : inputs doc = inputs doc') (fieldId : JSString) :
    fieldOutcome shortest env doc fieldId = fieldOutcome shortest env doc' fieldId := by
  have hm := fieldMessage_eq_of_inputs shortest env doc doc' h fieldId
  have h1 := isSome_eq_of_inputs doc doc' h fieldId
  have h2 := isSome_eq_of_inputs doc doc' h (errorId fieldId)
  unfold fieldMessage at hm
  simp only [fieldOutcome, validateField]
  rw [hm]
  cases switchMessage shortest env doc' fieldId (doc' fieldId) with
  | error e => rfl
  | ok msg =>
    cases hs : doc (errorId fieldId) <;> cases hs' : doc' (errorId fieldId) <;>
      cases he : doc fieldId <;> cases he' : doc' fieldId <;>
      simp_all [Except.map]

theorem errorText_reported (doc : Document) (fieldId : JSString) (el span : Element)
    (msg : JSString) : errorText (reported doc fieldId el span msg) fieldId = some msg := by
  simp [errorText, reported, Document.set, errorId_ne fieldId]

theorem invalidFlag_reported (doc : Document) (fieldId : JSString) (el span : Element)
    (msg : JSString) :
    invalidFlag (reported doc fieldId el span msg) fieldId = some (!msg.isEmpty) := by
  have h := mem_toggle_iff el.classList (js "invalid") (!msg.isEmpty)
  simp only [invalidFlag, reported, Document.set, if_true, Option.map_some']
  cases hm : (!msg.isEmpty)
  · rw [hm] at h
    simp [h]
  · rw [hm] at h
    simp [h]

/-- Reporting the same message again changes nothing. -/
theorem reported_reported (doc : Document) (fieldId : JSString) (el span : Element)
    (msg : JSString) :
    reported (reported doc fieldId el span msg) fieldId
        { el with classList := toggle el.classList (js "invalid") (!msg.isEmpty) }
        { span with textContent := msg } msg =
      reported doc fieldId el span msg := by
  funext id
  unfold reported Document.set
  by_cases h1 : id = fieldId
  · simp [h1, toggle_toggle]
  · by_cases h2 : id = errorId fieldId
    · simp [h2, errorId_ne fieldId]
    · simp [h1, h2]

/-- C17. For every field identifier that is not one of the eleven, over a
document that holds an element and an error span for it, `validateField`
throws nothing and produces the valid result: it returns true, the error text
it reports is `''` and the invalid flag is false. -/
theorem validateField_unknown (shortest : ℚ → JSString) (env : DateEnv) (doc : Document)
    (fieldId : JSString) (el span : Element) (hunknown : fieldId ∉ fieldIds)
    (hel : doc fieldId = some el) (hspan : doc (errorId fieldId) = some span) :
    ∃ doc', validateField shortest env doc fieldId = .ok (true, doc') ∧
      errorText doc' fieldId = some (js "") ∧ invalidFlag doc' fieldId = some false := by
  have hmsg : fieldMessage shortest env doc fieldId = .ok (js "") :=
    switchMessage_of_not_mem shortest env doc fieldId (doc fieldId) hunknown
  refine ⟨reported doc fieldId el span (js ""), ?_, ?_, ?_⟩
  · rw [validateField_ok_of shortest env doc fieldId el span (js "") hel hspan hmsg]
    rfl
  · exact errorText_reported doc fieldId el span (js "")
  · rw [invalidFlag_reported doc fieldId el span (js "")]
    rfl

/-- C17, witness: the identifier `'nickname'` over the form of the source's
first full-form test. -/
theorem validateField_unknown_witness :
    js "nickname" ∉ fieldIds ∧
      ∃ doc', validateField noShortest (isoEnv noon20261104 0) (formDocument validForm)
          (js "nickname") = .ok (true, doc') ∧
        errorText doc' (js "nickname") = some (js "") ∧
        invalidFlag doc' (js "nickname") = some false :=
  ⟨by decide,
    validateField_unknown noShortest (isoEnv noon20261104 0) (formDocument validForm)
      (js "nickname") (field [] false) (field [] false) (by decide) (by decide) (by decide)⟩

/-- C18. Re-validating an unchanged field is idempotent, the clock being
fixed: when `validateField(fieldId)` returns a boolean and leaves a document, a
second call on that document returns the same boolean and leaves the same
document, so the error text and the invalid flag are what they were; calling
twice in a row is calling once; and the first call changes the outcome of no
field. -/
theorem validateField_idempotent (shortest : ℚ → JSString) (env : DateEnv) (doc : Document)
    (fieldId : JSString) :
    (∀ (b : Bool) (doc' : Document), validateField shortest env doc fieldId = .ok (b, doc') →
      validateField shortest env doc' fieldId = .ok (b, doc') ∧
      ∀ other : JSString,
        fieldOutcome shortest env doc' other = fieldOutcome shortest env doc other) ∧
    ((validateField shortest env doc fieldId).bind
        (fun r => validateField shortest env r.2 fieldId) =
      validateField shortest env doc fieldId) := by
  have key : ∀ (b : Bool) (doc' : Document),
      validateField shortest env doc fieldId = .ok (b, doc') →
      validateField shortest env doc' fieldId = .ok (b, doc') ∧ inputs doc' = inputs doc := by
    intro b doc' h
    obtain ⟨el, span, msg, hel, hspan, hmsg, rfl, rfl⟩ :=
      validateField_ok_inv shortest env doc _ fieldId b h
    have hin := inputs_reported doc fieldId el span msg hel hspan
    have hmsg' : fieldMessage shortest env (reported doc fieldId el span msg) fieldId =
        .ok msg := by
      rw [fieldMessage_eq_of_inputs shortest env _ doc hin fieldId, hmsg]
    have hel' : reported doc fieldId el span msg fieldId =
        some { el with classList := toggle el.classList (js "invalid") (!msg.isEmpty) } := by
      simp [reported, Document.set]
    have hspan' : reported doc fieldId el span msg (errorId fieldId) =
        some { span with textContent := msg } := by
      simp [reported, Document.set, errorId_ne fieldId]
    refine ⟨?_, hin⟩
    rw [validateField_ok_of shortest env _ fieldId _ _ msg hel' hspan' hmsg',
      reported_reported]
  refine ⟨fun b doc' h => ⟨(key b doc' h).1, fun other =>
    fieldOutcome_eq_of_inputs shortest env doc' doc (key b doc' h).2 other⟩, ?_⟩
  cases hr : validateField shortest env doc fieldId with
  | error e => rfl
  | ok r =>
    obtain ⟨b, doc'⟩ := r
    exact (key b doc' hr).1

/-- C18, witness: the email field of the source's first full-form test,
validated twice. -/
theorem validateField_idempotent_witness :
    validateField noShortest (isoEnv noon20261104 0) (formDocument validForm) (js "email") =
        .ok (true, validFormEmailReported) ∧
      validateField noShortest (isoEnv noon20261104 0) validFormEmailReported (js "email") =
        .ok (true, validFormEmailReported) :=
  have h : validateField noShortest (isoEnv noon20261104 0) (formDocument validForm)
      (js "email") = .ok (true, validFormEmailReported) :=
    validateField_ok_of noShortest (isoEnv noon20261104 0) (formDocument validForm) (js "email")
      (field (js "alf.osa@example.com") false) (field [] false) (js "") (by decide) (by decide)
      (by decide)
  ⟨h, ((validateField_idempotent noShortest (isoEnv noon20261104 0) (formDocument validForm)
    (js "email")).1 true validFormEmailReported h).1⟩

/-! ## Theorems: `validateAllFields` -/

/-- The loop returns the conjunction of the per-field outcomes of the document
it started from: what it writes on the way changes none of them. -/
theorem validateFields_map_fst (shortest : ℚ → JSString) (env : DateEnv) (doc : Document)
    (fields : List JSString) (cur : Document) (acc : Bool) (hin : inputs cur = inputs doc) :
    (validateFields shortest env fields cur acc).map Prod.fst =
      allOutcomes shortest env doc fields acc := by
  induction fields generalizing cur acc with
  | nil => rfl
  | cons f rest ih =>
    have ho := fieldOutcome_eq_of_inputs shortest env cur doc hin f
    unfold validateFields allOutcomes
    rw [← ho]
    unfold fieldOutcome
    cases hv : validateField shortest env cur f with
    | error e => rfl
    | ok r =>
      obtain ⟨b, next⟩ := r
      obtain ⟨el, span, msg, hel, hspan, -, -, rfl⟩ :=
        validateField_ok_inv shortest env cur next f b hv
      have hin' : inputs (reported cur f el span msg) = inputs doc := by
        rw [inputs_reported cur f el span msg hel hspan, hin]
      have hacc : (if !b then false else acc) = (acc && b) := by
        cases b <;> cases acc <;> rfl
      have hi := ih (reported cur f el span msg) (if !b then false else acc) hin'
      rw [hacc] at hi
      simp only [Except.map, hacc] at hi ⊢
      exact hi

theorem allOutcomes_eq_ok_true_iff (shortest : ℚ → JSString) (env : DateEnv) (doc : Document)
    (fields : List JSString) (acc : Bool) :
    allOutcomes shortest env doc fields acc = .ok true ↔
      acc = true ∧ ∀ f ∈ fields, fieldOutcome shortest env doc f = .ok true := by
  induction fields generalizing acc with
  | nil => simp [allOutcomes]
  | cons f rest ih =>
    unfold allOutcomes
    cases ho : fieldOutcome shortest env doc f with
    | error e => simp [ho]
    | ok b =>
      simp only [ih, Bool.and_eq_true, List.mem_cons, forall_eq_or_imp, ho, Except.ok.injEq]
      tauto

/-- When every field has an outcome the loop returns their conjunction. -/
theorem allOutcomes_eq_and (shortest : ℚ → JSString) (env : DateEnv) (doc : Document)
    (fields : List JSString) (acc : Bool)
    (h : ∀ f ∈ fields, ∃ b, fieldOutcome shortest env doc f = .ok b) :
    allOutcomes shortest env doc fields acc =
      .ok (acc && fields.all (fun f => fieldOutcome shortest env doc f == .ok true)) := by
  induction fields generalizing acc with
  | nil => simp [allOutcomes]
  | cons f rest ih =>
    obtain ⟨b, hb⟩ := h f (List.mem_cons_self _ _)
    unfold allOutcomes
    rw [hb]
    simp only
    rw [ih (acc && b) (fun g hg => h g (List.mem_cons_of_mem _ hg))]
    cases b <;> simp [hb, Bool.and_assoc]

/-- The order of the fields does not change the boolean the loop returns, nor
whether it returns. -/
theorem allOutcomes_perm (shortest : ℚ → JSString) (env : DateEnv) (doc : Document)
    (l1 l2 : List JSString) (hp : l1.Perm l2) (acc : Bool) :
    (allOutcomes shortest env doc l1 acc).toOption =
      (allOutcomes shortest env doc l2 acc).toOption := by
  induction hp generalizing acc with
  | nil => rfl
  | cons x _ ih =>
    unfold allOutcomes
    cases fieldOutcome shortest env doc x with
    | error e => rfl
    | ok b => exact ih (acc && b)
  | swap x y l =>
    simp only [allOutcomes]
    cases fieldOutcome shortest env doc x <;> cases fieldOutcome shortest env doc y <;>
      simp only [Except.toOption]
    rw [Bool.and_right_comm]
  | trans _ _ ih1 ih2 => exact (ih1 acc).trans (ih2 acc)

theorem errorId_injective (f g : JSString) (h : errorId f = errorId g) : f = g :=
  List.append_cancel_left h

/-- What a document shows for a field stays shown when any field is reported
with its own message. -/
theorem shows_reported (shortest : ℚ → JSString) (env : DateEnv) (doc cur : Document)
    (f g mf mg : JSString) (el span : Element) (hel : cur g = some el)
    (hspan : cur (errorId g) = some span)
    (hmf : fieldMessage shortest env doc f = .ok mf)
    (hmg : fieldMessage shortest env doc g = .ok mg) (hs : Shows cur f mf) :
    Shows (reported cur g el span mg) f mf := by
  obtain ⟨ht, hf⟩ := hs
  by_cases hfg : f = g
  · subst hfg
    rw [hmf] at hmg
    cases hmg
    exact ⟨errorText_reported cur f el span mf, invalidFlag_reported cur f el span mf⟩
  · have hne : errorId f ≠ errorId g := fun h => hfg (errorId_injective f g h)
    constructor
    · unfold errorText at ht ⊢
      unfold reported Document.set
      by_cases h1 : errorId f = g
      · rw [if_pos h1]
        rw [h1, hel] at ht
        simpa using ht
      · rw [if_neg h1, if_neg hne]
        exact ht
    · unfold invalidFlag at hf ⊢
      unfold reported Document.set
      rw [if_neg hfg]
      by_cases h2 : f = errorId g
      · rw [if_pos h2]
        rw [h2, hspan] at hf
        simpa using hf
      · rw [if_neg h2]
        exact hf

/-- The loop reports every field it is given, whatever the earlier results,
and keeps what is shown. -/
theorem validateFields_reports (shortest : ℚ → JSString) (env : DateEnv) (doc : Document)
    (fields : List JSString) (cur : Document) (acc b : Bool) (final : Document)
    (hin : inputs cur = inputs doc)
    (h : validateFields shortest env fields cur acc = .ok (b, final)) :
    (∀ f ∈ fields, ∃ msg, fieldMessage shortest env doc f = .ok msg ∧ Shows final f msg) ∧
    (∀ f msg, fieldMessage shortest env doc f = .ok msg → Shows cur f msg →
      Shows final f msg) := by
  induction fields generalizing cur acc with
  | nil =>
    simp only [validateFields, Except.ok.injEq, Prod.mk.injEq] at h
    obtain ⟨-, rfl⟩ := h
    exact ⟨fun f hf => absurd hf (List.not_mem_nil f), fun f msg _ hs => hs⟩
  | cons g rest ih =>
    unfold validateFields at h
    cases hv : validateField shortest env cur g with
    | error e => simp [hv] at h
    | ok r =>
      obtain ⟨bg, next⟩ := r
      rw [hv] at h
      simp only at h
      obtain ⟨el, span, mg, hel, hspan, hmg, -, rfl⟩ :=
        validateField_ok_inv shortest env cur next g bg hv
      have hmg' : fieldMessage shortest env doc g = .ok mg := by
        rw [← fieldMessage_eq_of_inputs shortest env cur doc hin g, hmg]
      have hin' : inputs (reported cur g el span mg) = inputs doc := by
        rw [inputs_reported cur g el span mg hel hspan, hin]
      obtain ⟨ih1, ih2⟩ := ih (reported cur g el span mg) _ hin' h
      constructor
      · intro f hf
        rcases List.mem_cons.mp hf with rfl | hf
        · exact ⟨mg, hmg', ih2 f mg hmg'
            ⟨errorText_reported cur f el span mg, invalidFlag_reported cur f el span mg⟩⟩
        · exact ih1 f hf
      · intro f mf hmf hs
        exact ih2 f mf hmf (shows_reported shortest env doc cur f g mf mg el span hel hspan
          hmf hmg' hs)

/-- C13. `validateAllFields()` runs `validateField` over the eleven identifiers
of `fieldIds`, in that order, and does not stop at a field that fails: when it
returns, every one of the eleven fields has its message reported. Its boolean
is the conjunction of the per-field results: it returns true if and only if
every one of the eleven calls returns true, that is yields an empty message;
and for every permutation of the field order the boolean outcome is the
same. -/
theorem validateAllFields_spec (shortest : ℚ → JSString) (env : DateEnv) (doc : Document) :
    ((validateAllFields shortest env doc).map Prod.fst =
      allOutcomes shortest env doc fieldIds true) ∧
    ((validateAllFields shortest env doc).map Prod.fst = .ok true ↔
      ∀ f ∈ fieldIds, fieldOutcome shortest env doc f = .ok true) ∧
    ((∀ f ∈ fieldIds, ∃ b, fieldOutcome shortest env doc f = .ok b) →
      (validateAllFields shortest env doc).map Prod.fst =
        .ok (fieldIds.all (fun f => fieldOutcome shortest env doc f == .ok true))) ∧
    (∀ (b : Bool) (final : Document), validateAllFields shortest env doc = .ok (b, final) →
      ∀ f ∈ fieldIds, ∃ msg, fieldMessage shortest env doc f = .ok msg ∧ Shows final f msg) ∧
    (∀ fields : List JSString, fields.Perm fieldIds →
      ((validateFields shortest env fields doc true).map Prod.fst).toOption =
        ((validateAllFields shortest env doc).map Prod.fst).toOption) := by
  have hmap := validateFields_map_fst shortest env doc fieldIds doc true rfl
  refine ⟨hmap, ?_, ?_, ?_, ?_⟩
  · unfold validateAllFields
    rw [hmap, allOutcomes_eq_ok_true_iff]
    simp
  · intro h
    unfold validateAllFields
    rw [hmap, allOutcomes_eq_and shortest env doc fieldIds true h]
    simp
  · intro b final h
    exact (validateFields_reports shortest env doc fieldIds doc true b final rfl h).1
  · intro fields hp
    unfold validateAllFields
    rw [hmap, validateFields_map_fst shortest env doc fields doc true rfl]
    exact allOutcomes_perm shortest env doc fields fieldIds hp true

/-- C13, witness: the form of the source's first full-form test; every field
returns true and so does `validateAllFields`. -/
theorem validateAllFields_spec_witness :
    (∀ f ∈ fieldIds,
        fieldOutcome noShortest (isoEnv noon20261104 0) (formDocument validForm) f = .ok true) ∧
      (validateAllFields noShortest (isoEnv noon20261104 0) (formDocument validForm)).map
        Prod.fst = .ok true :=
  have h : ∀ f ∈ fieldIds,
      fieldOutcome noShortest (isoEnv noon20261104 0) (formDocument validForm) f = .ok true := by
    decide!
  ⟨h, (validateAllFields_spec noShortest (isoEnv noon20261104 0)
    (formDocument validForm)).2.1.mpr h⟩

/-! ## Theorems: the lookup `patterns[country]` -/

theorem patterns_of_inherited (country : JSString) (hk : country ∈ objectPrototypeKeys) :
    patterns country = .inherited := by
  simp only [objectPrototypeKeys, List.mem_cons, List.mem_singleton, List.not_mem_nil,
    or_false] at hk
  rcases hk with rfl | rfl | rfl | rfl | rfl | rfl | rfl | rfl | rfl | rfl | rfl | rfl <;> rfl

/-- C16, the code on the failing inputs. For every country that is the name of
a property inherited from `Object.prototype` and every value that is not
blank, `validatePostalCode` returns nothing: it throws a `TypeError`. -/
theorem validatePostalCode_throws_of_inherited (value country : JSString)
    (hb : isBlank value = false) (hk : country ∈ objectPrototypeKeys) :
    validatePostalCode value country = .error (js "TypeError: regex.test is not a function") := by
  unfold validatePostalCode
  rw [toBoolean_validateRequired, hb, patterns_of_inherited country hk]
  rfl

/-- C16, witness: the postal code `'12345'` under the country `'constructor'`. -/
theorem validatePostalCode_throws_of_inherited_witness :
    isBlank (js "12345") = false ∧ js "constructor" ∈ objectPrototypeKeys ∧
      validatePostalCode (js "12345") (js "constructor") =
        .error (js "TypeError: regex.test is not a function") :=
  ⟨by decide, by decide,
    validatePostalCode_throws_of_inherited (js "12345") (js "constructor") (by decide)
      (by decide)⟩

/-- Away from the inherited property names the default pattern accepts what
the pattern of the United States or of the United Kingdom accepts. -/
theorem default_accepts_of_table_accepts (value country : JSString)
    (hus : country ≠ js "United States") (huk : country ≠ js "United Kingdom")
    (hproto : country ∉ objectPrototypeKeys)
    (h : validatePostalCode value (js "United States") = .ok (js "") ∨
      validatePostalCode value (js "United Kingdom") = .ok (js "")) :
    validatePostalCode value country = .ok (js "") := by
  have hreq : js "Postal/Zip code is required." ≠ js "" := by decide
  have hm1 : js "Invalid postal code for " ++ js "United States" ++ js "." ≠ js "" := by decide
  have hm2 : js "Invalid postal code for " ++ js "United Kingdom" ++ js "." ≠ js "" := by
    decide
  rw [validatePostalCode_of_regex value (js "United States") usRegex rfl,
    validatePostalCode_of_regex value (js "United Kingdom") ukRegex rfl] at h
  rw [validatePostalCode_of_regex value country defaultRegex
    (patterns_fallback country hus huk hproto)]
  cases hb : isBlank value with
  | true =>
    rw [hb] at h
    simp only [if_true, Except.ok.injEq] at h
    rcases h with h | h <;> exact absurd h hreq
  | false =>
    rw [hb] at h
    simp only [Bool.false_eq_true, if_false] at h ⊢
    have hd : defaultRegex.test value = true := by
      rw [Regex.test_iff, defaultRegex_matches_iff]
      rcases h with h | h
      · have ht : usRegex.test value = true := by
          cases ht : usRegex.test value with
          | true => rfl
          | false =>
            rw [ht] at h
            simp only [Bool.false_eq_true, if_false, Except.ok.injEq] at h
            exact absurd h hm1
        obtain ⟨a, ha, hda, hv⟩ := (usRegex_matches_iff value).mp ((Regex.test_iff _ _).mp ht)
        have hj : js "-" = [45] := by decide
        rcases hv with rfl | ⟨b, hb4, hdb, rfl⟩
        · refine ⟨by omega, fun c hc => Or.inr (Or.inl (hda c hc))⟩
        · refine ⟨by simp [hj, ha, hb4], fun c hc => ?_⟩
          simp only [hj, List.mem_append, List.mem_singleton] at hc
          rcases hc with (hc | rfl) | hc
          · exact Or.inr (Or.inl (hda c hc))
          · exact Or.inr (Or.inr (Or.inr rfl))
          · exact Or.inr (Or.inl (hdb c hc))
      · have ht : ukRegex.test value = true := by
          cases ht : ukRegex.test value with
          | true => rfl
          | false =>
            rw [ht] at h
            simp only [Bool.false_eq_true, if_false, Except.ok.injEq] at h
            exact absurd h hm2
        obtain ⟨a, d1, o, sp, d2, l1, l2, rfl, ha, hau, hd1, ho, hsp, hd2, hl1, hl2⟩ :=
          (ukRegex_matches_iff value).mp ((Regex.test_iff _ _).mp ht)
        have hj : js " " = [32] := by decide
        have hup : ∀ c, isUpper c = true → isLetter c = true := by
          intro c hc
          simp [isLetter, hc]
        have hol : o.length ≤ 1 := by
          rcases ho with rfl | ⟨c, rfl, -⟩ <;> simp
        have hsl : sp.length ≤ 1 := by
          rcases hsp with rfl | rfl <;> simp [hj]
        refine ⟨by simp; omega, fun c hc => ?_⟩
        simp only [List.mem_append, List.mem_cons, List.mem_singleton, List.not_mem_nil,
          or_false] at hc
        rcases hc with (((hc | rfl) | hc) | hc) | rfl | rfl | rfl
        · exact Or.inl (hup c (hau c hc))
        · exact Or.inr (Or.inl hd1)
        · rcases ho with rfl | ⟨x, rfl, hx⟩
          · simp at hc
          · simp only [List.mem_singleton] at hc
            subst hc
            simp only [isUpperOrDigit, Bool.or_eq_true] at hx
            rcases hx with hx | hx
            · exact Or.inl (hup _ hx)
            · exact Or.inr (Or.inl hx)
        · rcases hsp with rfl | rfl
          · simp at hc
          · rw [hj] at hc
            simp only [List.mem_singleton] at hc
            subst hc
            exact Or.inr (Or.inr (Or.inl (by decide)))
        · exact Or.inr (Or.inl hd2)
        · exact Or.inl (hup _ hl1)
        · exact Or.inl (hup _ hl2)
    simp [hd]

/-- C19, the code at the failing input. `'10001'` is accepted under `'United
States'`; the country `'constructor'` is not in the table; under it the value
is not accepted: the call throws. Under `'Unknown'` it is accepted, and the
converse fails at `'12345'`, accepted under `'Unknown'` and rejected under
`'United Kingdom'`. -/
theorem validatePostalCode_default_not_most_permissive :
    validatePostalCode (js "10001") (js "United States") = .ok (js "") ∧
      js "constructor" ≠ js "United States" ∧ js "constructor" ≠ js "United Kingdom" ∧
      js "constructor" ≠ js "default" ∧
      validatePostalCode (js "10001") (js "constructor") =
        .error (js "TypeError: regex.test is not a function") ∧
      validatePostalCode (js "10001") (js "Unknown") = .ok (js "") ∧
      validatePostalCode (js "12345") (js "Unknown") = .ok (js "") ∧
      validatePostalCode (js "12345") (js "United Kingdom") =
        .ok (js "Invalid postal code for United Kingdom.") := by
  decide

/-! ## Theorems: the range check of `validateDateOfBirth` -/

theorem day_mono (a b : Int) (h : a ≤ b) : day a ≤ day b := by
  unfold day msPerDay
  omega

theorem dayFromYear_mono (y z : Int) (h : y ≤ z) : dayFromYear y ≤ dayFromYear z := by
  unfold dayFromYear
  omega

/-- The year of a later instant is not earlier. -/
theorem yearFromTime_mono (a b : Int) (h : a ≤ b) : yearFromTime a ≤ yearFromTime b := by
  by_contra hlt
  have h1 := dayFromYear_yearFromTime_le a
  have h2 := day_lt_dayFromYear_succ b
  have h3 := dayFromYear_mono (yearFromTime b + 1) (yearFromTime a) (by omega)
  have h4 := day_mono a b h
  omega

/-- A fixed offset from UTC keeps the local year monotone. -/
theorem isoEnv_yearMonotone (now tza : Int) : (isoEnv now tza).YearMonotone := by
  intro a b h
  apply yearFromTime_mono
  simp only [DateEnv.localTime, isoEnv]
  omega

/-- The age is not negative once the future check has not fired. -/
theorem age_not_negative (env : DateEnv) (hmono : env.YearMonotone) (value : JSString)
    (hf : env.inFuture value = false) :
    JSNum.lt (env.age value) (.fin 0) = false ∧ ∀ q : ℚ, env.age value = .fin q → 0 ≤ q := by
  unfold DateEnv.inFuture strictlyAfter at hf
  unfold DateEnv.age
  cases hT : env.setHoursZero (some env.now) with
  | none =>
    have h2 : env.getFullYear none = .nan := rfl
    have h3 : ∀ x : JSNum, JSNum.sub .nan x = .nan := fun x => by cases x <;> rfl
    rw [h2, h3]
    exact ⟨rfl, fun q hq => by cases hq⟩
  | some b =>
    cases hD : env.setHoursZero (env.newDate value) with
    | none =>
      have h2 : env.getFullYear none = .nan := rfl
      rw [h2, JSNum.sub_nan_right]
      exact ⟨rfl, fun q hq => by cases hq⟩
    | some a =>
      rw [hT, hD] at hf
      simp only [timeToNum, JSNum.lt, decide_eq_false_iff_not, not_lt, Int.cast_le] at hf
      have hy := hmono a b hf
      have hq : (0 : ℚ) ≤ (yearFromTime (env.localTime b) : ℚ) -
          (yearFromTime (env.localTime a) : ℚ) := by
        have : (yearFromTime (env.localTime a) : ℚ) ≤ (yearFromTime (env.localTime b) : ℚ) :=
          Int.cast_le.mpr hy
        linarith
      simp only [DateEnv.getFullYear, JSNum.sub, JSNum.lt, decide_eq_false_iff_not, not_lt,
        JSNum.fin.injEq]
      exact ⟨hq, fun q hqe => hqe ▸ hq⟩

/-- C20. In every environment whose local calendar year does not decrease with
time, for every current date and every value: if the future check did not fire
then the age `year(today) - year(d)` is not negative, so `age < 0` is false
whenever it is evaluated, and the message `'Please enter a valid date of
birth.'` is returned only when the calendar-year difference exceeds 120. -/
theorem validateDateOfBirth_age_check (env : DateEnv) (hmono : env.YearMonotone)
    (value : JSString) :
    (env.inFuture value = false →
      JSNum.lt (env.age value) (.fin 0) = false ∧ ∀ q : ℚ, env.age value = .fin q → 0 ≤ q) ∧
    (validateDateOfBirth env value = js "Please enter a valid date of birth." →
      env.inFuture value = false ∧ JSNum.gt (env.age value) (.fin 120) = true) := by
  refine ⟨age_not_negative env hmono value, ?_⟩
  intro h
  have h1 : js "Date of birth is required." ≠ js "Please enter a valid date of birth." := by
    decide
  have h2 : js "Date of birth cannot be in the future." ≠
      js "Please enter a valid date of birth." := by decide
  have h3 : js "" ≠ js "Please enter a valid date of birth." := by decide
  cases hb : isBlank value with
  | true =>
    have hreq : validateDateOfBirth env value = js "Date of birth is required." := by
      simp [validateDateOfBirth, toBoolean_validateRequired, hb]
    rw [hreq] at h
    exact absurd h h1
  | false =>
    rw [validateDateOfBirth_of_not_blank env value hb] at h
    have hfut : env.inFuture value = false := by
      cases hfu : env.inFuture value with
      | false => rfl
      | true =>
        have hg : JSNum.gt (timeToNum (env.setHoursZero (env.newDate value)))
            (timeToNum (env.setHoursZero (some env.now))) = true := hfu
        rw [if_pos hg] at h
        exact absurd h h2
    have hg : JSNum.gt (timeToNum (env.setHoursZero (env.newDate value)))
        (timeToNum (env.setHoursZero (some env.now))) = false := hfut
    have hneg := (age_not_negative env hmono value hfut).1
    have hage : JSNum.sub (env.getFullYear (env.setHoursZero (some env.now)))
        (env.getFullYear (env.setHoursZero (env.newDate value))) = env.age value := rfl
    rw [hg, hage, hneg] at h
    simp only [Bool.false_eq_true, if_false, Bool.false_or] at h
    refine ⟨hfut, ?_⟩
    cases hgt : JSNum.gt (env.age value) (.fin 120) with
    | true => rfl
    | false =>
      rw [hgt] at h
      exact absurd h h3

/-- C20, witness: on 4 November 2026, in UTC, the value `'1800-01-01'` of the
source's tests gets the range message, and its age exceeds 120. -/
theorem validateDateOfBirth_age_check_witness :
    (isoEnv noon20261104 0).YearMonotone ∧
      validateDateOfBirth (isoEnv noon20261104 0) (js "1800-01-01") =
        js "Please enter a valid date of birth." ∧
      JSNum.gt ((isoEnv noon20261104 0).age (js "1800-01-01")) (.fin 120) = true :=
  ⟨isoEnv_yearMonotone noon20261104 0, by decide!,
    ((validateDateOfBirth_age_check (isoEnv noon20261104 0)
      (isoEnv_yearMonotone noon20261104 0) (js "1800-01-01")).2 (by decide!)).2⟩

/-! ## Theorems: forms that `validateAllFields` rejects -/

theorem validateText_typed_isOk (shortest : ℚ → JSString) (value : JSString)
    (minLen maxLen : JSNum) (required : Bool) :
    ∃ m, validateText shortest (.str value) (.num minLen) (.num maxLen) (.bool required) =
      .ok m := by
  rw [validateText_of_typed]
  split_ifs
  · exact ⟨_, rfl⟩
  · exact ⟨_, rfl⟩
  · exact ⟨_, rfl⟩

/-- Only the rule of `postzipcode` can throw. -/
theorem ruleMessage_isOk (shortest : ℚ → JSString) (env : DateEnv) (fieldId value : JSString)
    (checked : Bool) (country : JSString) (hp : fieldId ≠ js "postzipcode") :
    ∃ m, ruleMessage shortest env fieldId value checked country = .ok m := by
  by_cases hm : fieldId ∈ fieldIds
  · simp only [fieldIds, List.mem_cons, List.mem_singleton, List.not_mem_nil, or_false] at hm
    rcases hm with rfl | rfl | rfl | rfl | rfl | rfl | rfl | rfl | rfl | rfl | rfl
    · exact validateText_typed_isOk shortest value (.fin 2) (.fin 50) true
    · exact validateText_typed_isOk shortest value (.fin 2) (.fin 50) false
    · exact ⟨_, rfl⟩
    · exact ⟨_, rfl⟩
    · exact validateText_typed_isOk shortest value (.fin 2) (.fin 100) true
    · exact validateText_typed_isOk shortest value (.fin 2) (.fin 100) true
    · exact absurd rfl hp
    · exact ⟨_, rfl⟩
    · exact ⟨_, rfl⟩
    · exact ⟨_, rfl⟩
    · exact ⟨_, rfl⟩
  · exact ⟨_, ruleMessage_of_not_mem shortest env fieldId value checked country hm⟩

/-- In a document that answers every lookup a field with a message has the
outcome "the message is empty". -/
theorem fieldOutcome_of_message (shortest : ℚ → JSString) (env : DateEnv) (doc : Document)
    (hall : ∀ id, (doc id).isSome = true) (fieldId msg : JSString)
    (hmsg : fieldMessage shortest env doc fieldId = .ok msg) :
    fieldOutcome shortest env doc fieldId = .ok msg.isEmpty := by
  obtain ⟨el, hel⟩ := Option.isSome_iff_exists.mp (hall fieldId)
  obtain ⟨span, hspan⟩ := Option.isSome_iff_exists.mp (hall (errorId fieldId))
  unfold fieldOutcome
  rw [validateField_ok_of shortest env doc fieldId el span msg hel hspan hmsg]
  rfl

theorem fieldMessage_isOk (shortest : ℚ → JSString) (env : DateEnv) (doc : Document)
    (hall : ∀ id, (doc id).isSome = true) (fieldId : JSString)
    (hp : fieldId ≠ js "postzipcode") :
    ∃ m, fieldMessage shortest env doc fieldId = .ok m := by
  obtain ⟨el, hel⟩ := Option.isSome_iff_exists.mp (hall fieldId)
  unfold fieldMessage
  rw [hel, switchMessage_eq_ruleMessage shortest env doc fieldId el (fun h => absurd h hp)]
  exact ruleMessage_isOk shortest env fieldId el.value el.checked (countryValue doc) hp

/-- When every lookup is answered and the postal code check returns, one field
with a message that is not empty makes `validateAllFields` return false. -/
theorem validateAllFields_false_of_message (shortest : ℚ → JSString) (env : DateEnv)
    (doc : Document) (hall : ∀ id, (doc id).isSome = true)
    (hpost : ∃ m, fieldMessage shortest env doc (js "postzipcode") = .ok m)
    (fieldId msg : JSString) (hmem : fieldId ∈ fieldIds)
    (hmsg : fieldMessage shortest env doc fieldId = .ok msg) (hne : msg ≠ js "") :
    (validateAllFields shortest env doc).map Prod.fst = .ok false := by
  have hok : ∀ f ∈ fieldIds, ∃ b, fieldOutcome shortest env doc f = .ok b := by
    intro f _
    by_cases hp : f = js "postzipcode"
    · obtain ⟨m, hm⟩ := hpost
      rw [hp]
      exact ⟨_, fieldOutcome_of_message shortest env doc hall _ m hm⟩
    · obtain ⟨m, hm⟩ := fieldMessage_isOk shortest env doc hall f hp
      exact ⟨_, fieldOutcome_of_message shortest env doc hall f m hm⟩
  have hfalse : fieldOutcome shortest env doc fieldId = .ok false := by
    rw [fieldOutcome_of_message shortest env doc hall fieldId msg hmsg]
    cases msg with
    | nil => exact absurd rfl hne
    | cons c t => rfl
  unfold validateAllFields
  rw [validateFields_map_fst shortest env doc fieldIds doc true rfl,
    allOutcomes_eq_and shortest env doc fieldIds true hok]
  simp only [Bool.true_and, Except.ok.injEq, List.all_eq_false]
  exact ⟨fieldId, hmem, by simp [hfalse]⟩

/-- C15, as amended. For every form state that answers every lookup and whose
postal code value is rejected by `validatePostalCode` under the country the
country field holds, `validateAllFields()` returns false, whatever the other
fields hold; e.g. the postal code `'10001'` with the country `'United Kingdom'`
yields false. -/
theorem validateAllFields_false_of_postal_rejected (shortest : ℚ → JSString) (env : DateEnv)
    (doc : Document) (hall : ∀ id, (doc id).isSome = true) (postal country : Element)
    (msg : JSString) (hpostal : doc (js "postzipcode") = some postal)
    (hcountry : doc (js "country") = some country)
    (hrej : validatePostalCode postal.value country.value = .ok msg) (hne : msg ≠ js "") :
    (validateAllFields shortest env doc).map Prod.fst = .ok false := by
  have hmsg : fieldMessage shortest env doc (js "postzipcode") = .ok msg := by
    unfold fieldMessage
    rw [hpostal, switchMessage_eq_ruleMessage shortest env doc (js "postzipcode") postal
      (fun _ => by simp [hcountry])]
    have h2 : ruleMessage shortest env (js "postzipcode") postal.value postal.checked
        (countryValue doc) = validatePostalCode postal.value (countryValue doc) := rfl
    rw [h2]
    simp only [countryValue, hcountry]
    exact hrej
  exact validateAllFields_false_of_message shortest env doc hall ⟨msg, hmsg⟩
    (js "postzipcode") msg (by decide) hmsg hne

theorem formDocument_isSome (fields : List (JSString × Element)) (id : JSString) :
    (formDocument fields id).isSome = true := rfl

/-- C15, witness: the source's third full-form test, `'10001'` under `'United
Kingdom'`. -/
theorem validateAllFields_false_of_postal_rejected_witness :
    validatePostalCode (js "10001") (js "United States") = .ok (js "") ∧
      validatePostalCode (js "10001") (js "United Kingdom") =
        .ok (js "Invalid postal code for United Kingdom.") ∧
      (validateAllFields noShortest (isoEnv noon20261104 0)
        (formDocument crossFieldForm)).map Prod.fst = .ok false :=
  ⟨by decide, by decide,
    validateAllFields_false_of_postal_rejected noShortest (isoEnv noon20261104 0)
      (formDocument crossFieldForm) (formDocument_isSome crossFieldForm)
      (field (js "10001") false) (field (js "United Kingdom") false)
      (js "Invalid postal code for United Kingdom.") (by decide) (by decide) (by decide)
      (by decide)⟩

/-- C15, counterexample. The postal code `'12345'` is valid for `'United
States'`; supplied while the country field holds `'Canada'`, all other fields
being valid, it is accepted by the default pattern and `validateAllFields()`
returns true. -/
theorem validateAllFields_true_under_other_country :
    validatePostalCode (js "12345") (js "United States") = .ok (js "") ∧
      js "Canada" ≠ js "United States" ∧
      inputs (formDocument canadaForm) (js "postzipcode") = some (js "12345", false) ∧
      inputs (formDocument canadaForm) (js "country") = some (js "Canada", false) ∧
      (validateAllFields noShortest (isoEnv noon20261104 0)
        (formDocument canadaForm)).map Prod.fst = .ok true := by
  refine ⟨by decide, by decide, by decide, by decide, ?_⟩
  decide!

/-- The rule of every required field rejects a blank value. -/
theorem ruleMessage_of_blank_required (shortest : ℚ → JSString) (env : DateEnv)
    (fieldId value : JSString) (checked : Bool) (country : JSString)
    (hreq : fieldId ∈ requiredIds) (hb : isBlank value = true) :
    ∃ m, ruleMessage shortest env fieldId value checked country = .ok m ∧ m ≠ js "" := by
  have htext : ∀ maxLen : JSNum,
      validateText shortest (.str value) (.num (.fin 2)) (.num maxLen) (.bool true) =
        .ok (js "This field is required.") := by
    intro maxLen
    rw [validateText_of_typed]
    simp [hb]
  have hr : toBoolean (validateRequired value) = false := by
    rw [toBoolean_validateRequired, hb]
    rfl
  simp only [requiredIds, List.mem_cons, List.mem_singleton, List.not_mem_nil, or_false] at hreq
  rcases hreq with rfl | rfl | rfl | rfl | rfl | rfl | rfl | rfl | rfl
  · exact ⟨js "This field is required.", htext (.fin 50), by decide⟩
  · refine ⟨js "Gender is required.", ?_, by decide⟩
    show Except.ok (if toBoolean (validateRequired value) then js ""
      else js "Gender is required.") = _
    rw [hr]
    rfl
  · refine ⟨js "Date of birth is required.", ?_, by decide⟩
    show Except.ok (validateDateOfBirth env value) = _
    simp [validateDateOfBirth, hr]
  · exact ⟨js "This field is required.", htext (.fin 100), by decide⟩
  · exact ⟨js "This field is required.", htext (.fin 100), by decide⟩
  · refine ⟨js "Postal/Zip code is required.", ?_, by decide⟩
    show validatePostalCode value country = _
    simp [validatePostalCode, hr]
  · refine ⟨js "Country is required.", ?_, by decide⟩
    show Except.ok (if toBoolean (validateRequired value) then js ""
      else js "Country is required.") = _
    rw [hr]
    rfl
  · refine ⟨js "Email is required.", ?_, by decide⟩
    show Except.ok (validateEmail value) = _
    simp [validateEmail, hr]
  · refine ⟨js "Phone number is required.", ?_, by decide⟩
    show Except.ok (validatePhone value) = _
    simp [validatePhone, hr]

/-- When every lookup is answered and the postal code check returns, a blank
required field or an unchecked terms box makes `validateAllFields` return
false, whatever the other fields hold. -/
theorem validateAllFields_false_of_blank_required (shortest : ℚ → JSString) (env : DateEnv)
    (doc : Document) (hall : ∀ id, (doc id).isSome = true)
    (hpost : ∃ m, fieldMessage shortest env doc (js "postzipcode") = .ok m)
    (fieldId : JSString) (el : Element) (hel : doc fieldId = some el)
    (hblank : (fieldId ∈ requiredIds ∧ isBlank el.value = true) ∨
      (fieldId = js "terms" ∧ el.checked = false)) :
    (validateAllFields shortest env doc).map Prod.fst = .ok false := by
  have hmem : fieldId ∈ fieldIds := by
    rcases hblank with ⟨h, -⟩ | ⟨h, -⟩
    · simp only [requiredIds, List.mem_cons, List.mem_singleton, List.not_mem_nil,
        or_false] at h
      rcases h with rfl | rfl | rfl | rfl | rfl | rfl | rfl | rfl | rfl <;> decide
    · rw [h]
      decide
  have hmsg : ∃ m, fieldMessage shortest env doc fieldId = .ok m ∧ m ≠ js "" := by
    unfold fieldMessage
    rw [hel, switchMessage_eq_ruleMessage shortest env doc fieldId el
      (fun _ => hall (js "country"))]
    rcases hblank with ⟨h, hb⟩ | ⟨h, hc⟩
    · exact ruleMessage_of_blank_required shortest env fieldId el.value el.checked
        (countryValue doc) h hb
    · subst h
      refine ⟨js "You must accept the terms and conditions.", ?_, by decide⟩
      show Except.ok (if el.checked then js ""
        else js "You must accept the terms and conditions.") = _
      rw [hc]
      rfl
  obtain ⟨m, hm, hne⟩ := hmsg
  exact validateAllFields_false_of_message shortest env doc hall hpost fieldId m hmem hm hne

/-- C14, the code at the failing input. The first name is blank, the postal
code is `'12345'` and the country field holds `'constructor'`: the call of
`validateField('postzipcode')` throws, so `validateAllFields()` returns neither
false nor true. With the last name blank and nothing else changed in the valid
form it returns true. -/
theorem validateAllFields_throws_with_blank_required :
    inputs (formDocument blankNameConstructorForm) (js "fName") = some (js "", false) ∧
      isBlank (js "") = true ∧
      (validateAllFields noShortest (isoEnv noon20261104 0)
        (formDocument blankNameConstructorForm)).map Prod.fst =
          .error (js "TypeError: regex.test is not a function") ∧
      (validateAllFields noShortest (isoEnv noon20261104 0)
        (formDocument blankLastNameForm)).map Prod.fst = .ok true := by
  refine ⟨by decide, by decide, ?_, ?_⟩
  · decide!
  · decide!

/-! ## Theorems: `validateDateOfBirth` at and east of UTC -/

theorem daysBefore_succ (y : Int) (m : Nat) (hm : 1 ≤ m) :
    daysBefore y (m + 1) = daysBefore y m + daysInMonth y m := by
  obtain ⟨k, rfl⟩ : ∃ k, m = k + 1 := ⟨m - 1, by omega⟩
  simp [daysBefore, List.range_succ]

theorem daysBefore_mono (y : Int) (m n : Nat) (hm : 1 ≤ m) (h : m ≤ n) :
    daysBefore y m ≤ daysBefore y n := by
  induction n with
  | zero => omega
  | succ k ih =>
    rcases Nat.eq_or_lt_of_le h with rfl | hlt
    · exact le_refl _
    · have h1 : m ≤ k := by omega
      have h2 := ih h1
      rw [daysBefore_succ y k (by omega)]
      omega

theorem daysBefore_thirteen (y : Int) :
    daysBefore y 13 = if inLeapYear y then 366 else 365 := by
  cases h : inLeapYear y <;> simp [daysBefore, List.range_succ, daysInMonth, h]

/-- The year after a leap year starts 366 days later, any other 365. -/
theorem dayFromYear_succ (y : Int) :
    dayFromYear (y + 1) = dayFromYear y + (if inLeapYear y then 366 else 365) := by
  cases h : inLeapYear y
  · simp only [inLeapYear, Bool.or_eq_false_iff, Bool.and_eq_false_iff, beq_eq_false_iff_ne,
      bne_eq_false_iff_eq, ne_eq] at h
    simp only [Bool.false_eq_true, if_false]
    unfold dayFromYear
    omega
  · simp only [inLeapYear, Bool.or_eq_true, Bool.and_eq_true, beq_iff_eq, bne_iff_ne,
      ne_eq] at h
    simp only [if_true]
    unfold dayFromYear
    omega

/-- The year of an instant is the year whose days hold its day. -/
theorem yearFromTime_eq (t y : Int) (h1 : dayFromYear y ≤ day t)
    (h2 : day t < dayFromYear (y + 1)) : yearFromTime t = y := by
  have h3 := dayFromYear_yearFromTime_le t
  have h4 := day_lt_dayFromYear_succ t
  by_contra hne
  rcases lt_or_gt_of_ne hne with h | h
  · have := dayFromYear_mono (yearFromTime t + 1) y (by omega)
    omega
  · have := dayFromYear_mono (y + 1) (yearFromTime t) (by omega)
    omega

theorem day_makeDate (d : Int) : day (makeDate d 0) = d := by
  unfold day makeDate msPerDay
  omega

/-- A calendar date lies in its year. -/
theorem dayNumber_bounds (c : CalendarDate) (hc : c.Valid) :
    dayFromYear c.year ≤ c.dayNumber ∧ c.dayNumber < dayFromYear (c.year + 1) := by
  obtain ⟨⟨hm1, hm12⟩, hd1, hd2⟩ := hc
  have h1 := daysBefore_succ c.year c.month hm1
  have h2 := daysBefore_mono c.year (c.month + 1) 13 (by omega) (by omega)
  have h3 := daysBefore_thirteen c.year
  have h4 := dayFromYear_succ c.year
  have h5 : c.dayNumber = dayFromYear c.year + (daysBefore c.year c.month : Int) +
      ((c.day : Int) - 1) := rfl
  rw [h5, h4]
  split_ifs at h3 h4 ⊢ <;> omega

/-- The year of a calendar date, recovered from its day number. -/
theorem yearFromTime_dayNumber (c : CalendarDate) (hc : c.Valid) :
    yearFromTime (makeDate c.dayNumber 0) = c.year := by
  have h := dayNumber_bounds c hc
  apply yearFromTime_eq
  · rw [day_makeDate]
    exact h.1
  · rw [day_makeDate]
    exact h.2

/-- A later calendar date has a later day number, and conversely. -/
theorem after_iff_dayNumber_lt (a b : CalendarDate) (ha : a.Valid) (hb : b.Valid) :
    a.after b = true ↔ b.dayNumber < a.dayNumber := by
  have hba := dayNumber_bounds a ha
  have hbb := dayNumber_bounds b hb
  obtain ⟨⟨am1, am12⟩, ad1, ad2⟩ := ha
  obtain ⟨⟨bm1, bm12⟩, bd1, bd2⟩ := hb
  have ea : a.dayNumber = dayFromYear a.year + (daysBefore a.year a.month : Int) +
      ((a.day : Int) - 1) := rfl
  have eb : b.dayNumber = dayFromYear b.year + (daysBefore b.year b.month : Int) +
      ((b.day : Int) - 1) := rfl
  simp only [CalendarDate.after, Bool.or_eq_true, Bool.and_eq_true, decide_eq_true_eq]
  rcases lt_trichotomy a.year b.year with hy | hy | hy
  · have := dayFromYear_mono (a.year + 1) b.year (by omega)
    constructor
    · rintro (h | ⟨h, _⟩) <;> omega
    · intro h
      omega
  · rcases lt_trichotomy a.month b.month with hm | hm | hm
    · have h1 := daysBefore_succ a.year a.month am1
      have h2 := daysBefore_mono a.year (a.month + 1) b.month (by omega) (by omega)
      rw [hy] at h1 h2 ea ad2
      constructor
      · rintro (h | ⟨_, h | ⟨h, _⟩⟩) <;> omega
      · intro h
        omega
    · rw [hy, hm] at ea
      constructor
      · rintro (h | ⟨_, h | ⟨_, h⟩⟩) <;> omega
      · intro h
        exact Or.inr ⟨hy, Or.inr ⟨hm, by omega⟩⟩
    · have h1 := daysBefore_succ b.year b.month bm1
      have h2 := daysBefore_mono b.year (b.month + 1) a.month (by omega) (by omega)
      rw [← hy] at h1 h2 eb bd2
      constructor
      · intro _
        omega
      · intro _
        exact Or.inr ⟨hy, Or.inl hm⟩
  · have := dayFromYear_mono (b.year + 1) a.year (by omega)
    constructor
    · intro _
      omega
    · intro _
      exact Or.inl hy

theorem timeClip_of_bounds (t : Int) (h1 : -8640000000000000 ≤ t)
    (h2 : t ≤ 8640000000000000) : timeClip t = some t := by
  unfold timeClip
  rw [if_pos]
  omega

/-- At a fixed offset at or east of UTC, normalising the midnight UTC of a day
gives the local midnight of the same day. -/
theorem setHoursZero_of_east (env : DateEnv) (tza : Int)
    (htza : ∀ t b, env.localTZA t b = tza) (h0 : 0 ≤ tza) (h1 : tza < msPerDay) (t n : Int)
    (hday : env.localDay t = n) (hr : -100000000 < n ∧ n ≤ 100000000) :
    env.setHoursZero (some t) = some (makeDate n 0 - tza) := by
  have hd : day (env.localTime t) = n := hday
  simp only [DateEnv.setHoursZero, hd, DateEnv.utc, htza]
  apply timeClip_of_bounds
  · unfold makeDate msPerDay at *
    omega
  · unfold makeDate msPerDay at *
    omega

theorem localDay_makeDate_of_east (env : DateEnv) (tza : Int)
    (htza : ∀ t b, env.localTZA t b = tza) (h0 : 0 ≤ tza) (h1 : tza < msPerDay) (n : Int) :
    env.localDay (makeDate n 0) = n := by
  simp only [DateEnv.localDay, DateEnv.localTime, htza]
  unfold day makeDate msPerDay at *
  omega

/-- At a fixed offset at or east of UTC the code returns what is stated: for
every value that is not blank and is read as midnight UTC of the calendar date
`d`, on the local calendar date `today`, `validateDateOfBirth` returns the
future message if `d` is after today, otherwise the range message if the
calendar-year difference is negative or exceeds 120, otherwise `''`. -/
theorem validateDateOfBirth_east_of_utc (env : DateEnv) (tza : Int)
    (htza : ∀ t b, env.localTZA t b = tza) (h0 : 0 ≤ tza) (h1 : tza < msPerDay)
    (value : JSString) (today d : CalendarDate) (hb : isBlank value = false)
    (hvt : today.Valid) (hvd : d.Valid)
    (hparse : env.parse value = some (makeDate d.dayNumber 0))
    (htoday : env.localDay env.now = today.dayNumber)
    (hrt : -100000000 < today.dayNumber ∧ today.dayNumber ≤ 100000000)
    (hrd : -100000000 < d.dayNumber ∧ d.dayNumber ≤ 100000000) :
    validateDateOfBirth env value = dateOfBirthStated today d := by
  have hnew : env.newDate value = some (makeDate d.dayNumber 0) := by
    simp only [DateEnv.newDate, hparse, Option.some_bind]
    apply timeClip_of_bounds
    · unfold makeDate msPerDay
      omega
    · unfold makeDate msPerDay
      omega
  have hdob := setHoursZero_of_east env tza htza h0 h1 (makeDate d.dayNumber 0) d.dayNumber
    (localDay_makeDate_of_east env tza htza h0 h1 d.dayNumber) hrd
  have hnow := setHoursZero_of_east env tza htza h0 h1 env.now today.dayNumber htoday hrt
  have hyd : env.getFullYear (some (makeDate d.dayNumber 0 - tza)) = .fin (d.year : ℚ) := by
    simp only [DateEnv.getFullYear, DateEnv.localTime, htza, sub_add_cancel,
      yearFromTime_dayNumber d hvd]
  have hyt : env.getFullYear (some (makeDate today.dayNumber 0 - tza)) =
      .fin (today.year : ℚ) := by
    simp only [DateEnv.getFullYear, DateEnv.localTime, htza, sub_add_cancel,
      yearFromTime_dayNumber today hvt]
  have hafter := after_iff_dayNumber_lt d today hvd hvt
  have hgt : JSNum.gt (timeToNum (some (makeDate d.dayNumber 0 - tza)))
      (timeToNum (some (makeDate today.dayNumber 0 - tza))) = d.after today := by
    have hiff : JSNum.gt (timeToNum (some (makeDate d.dayNumber 0 - tza)))
        (timeToNum (some (makeDate today.dayNumber 0 - tza))) = true ↔
        today.dayNumber < d.dayNumber := by
      simp only [JSNum.gt, timeToNum, JSNum.lt, decide_eq_true_eq, Int.cast_lt]
      unfold makeDate msPerDay
      omega
    rw [Bool.eq_iff_iff, hiff, hafter]
  rw [validateDateOfBirth_of_not_blank env value hb, hnew, hdob, hnow, hgt, hyd, hyt]
  unfold dateOfBirthStated
  have hlt : JSNum.lt (JSNum.sub (.fin (today.year : ℚ)) (.fin (d.year : ℚ))) (.fin 0) =
      decide (today.year - d.year < 0) := by
    simp only [JSNum.sub, JSNum.lt]
    congr 1
    rw [← Int.cast_sub, ← Int.cast_zero, Int.cast_lt]
  have hg120 : JSNum.gt (JSNum.sub (.fin (today.year : ℚ)) (.fin (d.year : ℚ))) (.fin 120) =
      decide (today.year - d.year > 120) := by
    simp only [JSNum.sub, JSNum.gt, JSNum.lt, gt_iff_lt]
    congr 1
    rw [← Int.cast_sub, show (120 : ℚ) = ((120 : Int) : ℚ) by norm_num, Int.cast_lt]
  rw [hlt, hg120]
  cases d.after today
  · simp only [Bool.false_eq_true, if_false, Bool.or_eq_true, decide_eq_true_eq]
  · simp only [if_true]

/-- The code meets the stated reference in UTC on the two dates on which it
fails five hours west: a witness of `validateDateOfBirth_east_of_utc`. -/
theorem validateDateOfBirth_east_of_utc_witness :
    validateDateOfBirth (isoEnv noon20261104 0) (js "2026-11-05") =
      dateOfBirthStated ⟨2026, 11, 4⟩ ⟨2026, 11, 5⟩ :=
  validateDateOfBirth_east_of_utc (isoEnv noon20261104 0) 0 (fun _ _ => rfl) (by decide)
    (by decide) (js "2026-11-05") ⟨2026, 11, 4⟩ ⟨2026, 11, 5⟩ (by decide)
    ⟨⟨by decide, by decide⟩, by decide, by decide⟩
    ⟨⟨by decide, by decide⟩, by decide, by decide⟩ (by decide!) (by decide!)
    ⟨by decide!, by decide!⟩ ⟨by decide!, by decide!⟩

end FormValidation
